import Mathlib

/-!
# Verification of the tile-binned software rasterizer core

This file gives a shallow embedding, in Lean 4, of the core of the
`vigilant-system` software rasterizer (`src/rasterizer/rasterizer.cpp`,
the live revision starting around line 1650, plus `src/include/s1516.h`),
and proves or refutes the frozen specification claims about it.

Modelling conventions:
* C `int32_t` values are modelled as `Int`, wrapped with `wrap32` exactly
  where 32-bit overflow can occur in the source (two's-complement wrap).
* C `uint32_t` values are modelled as `Nat` reduced `% 2^32` (`tou32`).
* C `/` on signed integers is `Int.tdiv` (truncation toward zero);
  C `>>` on signed integers is an arithmetic shift, i.e. `Int.fdiv` by a
  power of two.
* Loops become folds or fuel-based recursion; all definitions are
  executable.
* Performance counters (`qpc`), debug printing, and `assert` side effects
  are omitted; where a claim is about an assertion, the asserted condition
  is threaded through the state as an explicit boolean flag.
-/

/-! ## Machine-integer helpers -/

/-- Two's-complement wrap of an `Int` to the signed 32-bit range. -/
def wrap32 (x : Int) : Int := (x + 2 ^ 31) % 2 ^ 32 - 2 ^ 31

/-- Reinterpret an `Int` as an unsigned 32-bit value (`(uint32_t)x`). -/
def tou32 (x : Int) : Nat := (x % 2 ^ 32).toNat

/-- Reinterpret an unsigned 32-bit value as a signed one (`(int32_t)x`). -/
def asI32 (d : Nat) : Int := if d < 2 ^ 31 then (d : Int) else (d : Int) - 2 ^ 32

/-- Arithmetic right shift of a (signed) `Int` (C `>>` on `int32_t`/`int64_t`). -/
def sar (x : Int) (k : Nat) : Int := Int.fdiv x (2 ^ k)

/-- Unsigned 32-bit subtraction `a - b` (wraps modulo `2^32`). -/
def usub32 (a b : Nat) : Nat := (a + 2 ^ 32 - b % 2 ^ 32) % 2 ^ 32

/-- Inclusive integer range `[a, b]` as a list (C `for (i = a; i <= b; i++)`);
empty when `b < a`. -/
def intRange (a b : Int) : List Int :=
  (List.range (b + 1 - a).toNat).map (fun i => a + i)

/-! ## Fixed-point Q16.16 arithmetic (`s1516_*`, rasterizer.cpp lines 1674-1764) -/

/-- `s1516_add`: plain 32-bit addition, wraps. -/
def s1516_add (a b : Int) : Int := wrap32 (a + b)

/-- `s1516_sat`: saturate a 64-bit intermediate to the signed 32-bit range. -/
def s1516_sat (x : Int) : Int :=
  if x > 0x7FFFFFFF then 0x7FFFFFFF
  else if x < -0x80000000 then -0x80000000
  else x

/-- `s1516_add_sat`: saturating addition. -/
def s1516_add_sat (a b : Int) : Int := s1516_sat (a + b)

/-- `s1516_mul`: `sat((a*b + 2^15) >> 16)`, rounding mid values up. -/
def s1516_mul (a b : Int) : Int := s1516_sat (sar (a * b + 2 ^ 15) 16)

/-- `s1516_div` (rasterizer.cpp lines 1718-1733): pre-shift the dividend by
16 bits, add (or subtract) `b/2` depending on sign agreement, then divide
with C truncation.  The 64-bit quotient is converted back to `int32_t`
*without* saturation (`result = (int32_t)(temp / b)`), i.e. it wraps. -/
def s1516_div (a b : Int) : Int :=
  let temp := a * 2 ^ 16
  let temp :=
    if (0 ≤ temp ∧ 0 ≤ b) ∨ (temp < 0 ∧ b < 0) then temp + Int.tdiv b 2
    else temp - Int.tdiv b 2
  wrap32 (Int.tdiv temp b)

/-- `s1516_fma`: `sat((a*b + (c << 16) + 2^15) >> 16)`. -/
def s1516_fma (a b c : Int) : Int := s1516_sat (sar (a * b + c * 2 ^ 16 + 2 ^ 15) 16)

/-- `s1516_int`: integer to Q16.16 (`i << 16`). -/
def s1516_int (i : Int) : Int := i * 2 ^ 16

/-- `s168_s1516`: Q16.16 to Q16.8 window coordinate, via `s1516_div`. -/
def s168_s1516 (x : Int) : Int := s1516_div x (s1516_int 256)

/-! ## Bit helpers: `pdep_u32` and `lzcnt` (generic C implementations) -/

/-- One pass of the generic `pdep_u32` loop (rasterizer.cpp lines 65-84):
`m` is the current mask bit index, `k` the current source bit index. -/
def pdep_loop (source mask : Nat) : Nat → Nat → Nat → Nat → Nat
  | 0, _, _, dest => dest
  | fuel + 1, m, k, dest =>
    if mask &&& (1 <<< m) ≠ 0 then
      pdep_loop source mask fuel (m + 1) (k + 1)
        ((dest &&& (2 ^ 32 - 1 - (1 <<< m))) ||| (((source &&& (1 <<< k)) >>> k) <<< m))
    else
      pdep_loop source mask fuel (m + 1) k dest

/-- `pdep_u32`: parallel bit deposit of the low bits of `source` into the
set bits of `mask`, matching the x86 PDEP semantics. -/
def pdep_u32 (source mask : Nat) : Nat := pdep_loop source mask 32 0 0 0

/-- The generic `lzcnt` loop (rasterizer.cpp lines 1601-1613): shift left
until the top bit is set, counting iterations. -/
def lzcnt_loop (top : Nat) : Nat → Nat → Nat → Nat
  | 0, i, _ => i
  | f + 1, i, v => if v &&& top ≠ 0 then i else lzcnt_loop top f (i + 1) (v <<< 1)

/-- `lzcnt`: count of leading zeros of a 32-bit value (`lzcnt(0) = 32`). -/
def lzcnt (x : Nat) : Nat := lzcnt_loop (2 ^ 31) 32 0 x

/-- `lzcnt64`: count of leading zeros of a 64-bit value. -/
def lzcnt64 (x : Nat) : Nat := lzcnt_loop (2 ^ 63) 64 0 x

/-! ## Tile constants -/

/-- `TILE_WIDTH_IN_PIXELS` = 128. -/
def TILE_WIDTH_IN_PIXELS : Nat := 128

/-- `COARSE_BLOCK_WIDTH_IN_PIXELS` = 16. -/
def COARSE_BLOCK_WIDTH_IN_PIXELS : Nat := 16

/-- `PIXELS_PER_TILE` = 128 * 128. -/
def PIXELS_PER_TILE : Nat := 16384

/-- `TILE_WIDTH_IN_COARSE_BLOCKS` = 8. -/
def TILE_WIDTH_IN_COARSE_BLOCKS : Nat := 8

/-- `TILE_X_SWIZZLE_MASK = 0x55555555 & (PIXELS_PER_TILE - 1)`. -/
def TILE_X_SWIZZLE_MASK : Nat := 0x55555555 &&& (PIXELS_PER_TILE - 1)

/-- `TILE_Y_SWIZZLE_MASK = 0xAAAAAAAA & (PIXELS_PER_TILE - 1)`. -/
def TILE_Y_SWIZZLE_MASK : Nat := 0xAAAAAAAA &&& (PIXELS_PER_TILE - 1)

/-- `TILE_COMMAND_BUFFER_SIZE_IN_DWORDS` = 128. -/
def TILE_COMMAND_BUFFER_SIZE_IN_DWORDS : Nat := 128

/-! ## Tile command payloads

Struct layouts from rasterizer.cpp lines 1792-1820.  `tilecmd_id` values
(lines 1776-1785): `resetbuf = 0`, `drawsmalltri = 1`, `drawtile_0edge = 2`
… `drawtile_3edge = 5`, `cleartile = 6`. -/

/-- `tilecmd_drawsmalltri_t` (20 dwords). -/
structure tilecmd_drawsmalltri_t where
  edges0 : Int
  edges1 : Int
  edges2 : Int
  edge_dxs0 : Int
  edge_dxs1 : Int
  edge_dxs2 : Int
  edge_dys0 : Int
  edge_dys1 : Int
  edge_dys2 : Int
  vert_Zs0 : Int
  vert_Zs1 : Int
  vert_Zs2 : Int
  max_Z : Nat
  min_Z : Nat
  rcp_triarea2 : Nat
  first_coarse_x : Int
  last_coarse_x : Int
  first_coarse_y : Int
  last_coarse_y : Int
  deriving DecidableEq, Repr

/-- `tilecmd_drawtile_t` (16 dwords); `tilecmd_id` is kept because the
consumer derives the number of edges to test from it. -/
structure tilecmd_drawtile_t where
  tilecmd_id : Nat
  edges0 : Int
  edges1 : Int
  edges2 : Int
  edge_dxs0 : Int
  edge_dxs1 : Int
  edge_dxs2 : Int
  edge_dys0 : Int
  edge_dys1 : Int
  edge_dys2 : Int
  vert_Zs0 : Int
  vert_Zs1 : Int
  vert_Zs2 : Int
  max_Z : Nat
  min_Z : Nat
  rcp_triarea2 : Nat
  deriving DecidableEq, Repr

/-- Triple of 32-bit edge accumulators. -/
abbrev I3 := Int × Int × Int

/-- Index into an `I3` (array access `edges[v]`). -/
def t3get (t : I3) : Nat → Int
  | 0 => t.1
  | 1 => t.2.1
  | _ => t.2.2

/-- Per-component 32-bit wrapping add of two `I3` (`edges[v] += d[v]`). -/
def eadd3 (e d : I3) : I3 :=
  (wrap32 (e.1 + d.1), wrap32 (e.2.1 + d.2.1), wrap32 (e.2.2 + d.2.2))

/-- Guarded add: only the first `n` components are updated
(`for (v = 0; v < num_test_edges; v++) edges[v] += d[v]`). -/
def eadd3n (n : Nat) (e d : I3) : I3 :=
  (if 1 ≤ n then wrap32 (e.1 + d.1) else e.1,
   if 2 ≤ n then wrap32 (e.2.1 + d.2.1) else e.2.1,
   if 3 ≤ n then wrap32 (e.2.2 + d.2.2) else e.2.2)

/-! ## Framebuffer planes and the per-pixel shading step -/

/-- Color and depth planes, indexed by the swizzled storage pixel index:
`planes px = (backbuffer[px], depthbuffer[px])`. -/
abbrev Planes := Nat → Nat × Nat

/-- Rasterization state threaded through the consumers: the two planes plus
a flag recording that no `assert(u < 0x8000)` / `assert(v < 0x8000)` in the
pixel loops has failed. -/
structure RasterSt where
  planes : Planes
  ok : Bool

/-- Small-triangle barycentric numerator (rasterizer.cpp lines 1968-1987):
negate the edge value, shift by the unpacked reciprocal exponent, multiply
by the 8-bit reciprocal mantissa, shift right by 1. -/
def smalltri_uv (rcp : Nat) (e : Int) : Int :=
  let mantissa : Int := ((rcp &&& 0xFF : Nat) : Int)
  let rshift : Int := (((rcp &&& 0xFF00) >>> 8 : Nat) : Int) - 127
  let shifted := wrap32 (-e)
  let shifted :=
    if rshift < 0 then wrap32 (shifted * 2 ^ (-rshift).toNat)
    else sar shifted rshift.toNat
  sar (wrap32 (shifted * mantissa)) 1

/-- Large-triangle barycentric numerator (lines 2140-2158): 16-bit mantissa,
8-bit exponent, final shift `>> 16 >> 1`. -/
def largetri_uv (rcp : Nat) (e : Int) : Int :=
  let mantissa : Int := ((rcp &&& 0xFFFF : Nat) : Int)
  let rshift : Int := (((rcp &&& 0xFF0000) >>> 16 : Nat) : Int) - 127
  let shifted := wrap32 (-e)
  let shifted :=
    if rshift < 0 then wrap32 (shifted * 2 ^ (-rshift).toNat)
    else sar shifted rshift.toNat
  sar (sar (wrap32 (shifted * mantissa)) 16) 1

/-- Interpolated depth before clamping (lines 1997-1999; a `uint32_t`
computed from wrapping 32-bit arithmetic):
`(vert_Zs[0] << 15) + u*(vert_Zs[1]-vert_Zs[0]) + v*(vert_Zs[2]-vert_Zs[0])`. -/
def interp_pixel_Z (vZ0 vZ1 vZ2 u v : Int) : Nat :=
  tou32 (vZ0 * 2 ^ 15 + u * (vZ1 - vZ0) + v * (vZ2 - vZ0))

/-- Depth clamp (lines 2001-2005): raise to `min_Z << 15`, then cap at
`max_Z << 15` (unsigned comparisons, shifts wrap modulo `2^32`). -/
def clamp_pixel_Z (minZ maxZ z : Nat) : Nat :=
  let lo := (minZ * 2 ^ 15) % 2 ^ 32
  let hi := (maxZ * 2 ^ 15) % 2 ^ 32
  let z := if z < lo then lo else z
  if z > hi then hi else z

/-- Color written on a depth-test pass (line 2010):
`(0xFF << 24) | ((w/0x80) << 16) | ((u/0x80) << 8) | (v/0x80)`. -/
def shade_color_word (u v w : Int) : Nat :=
  (0xFF <<< 24) ||| tou32 (wrap32 (Int.tdiv w 0x80 * 2 ^ 16)) |||
    tou32 (wrap32 (Int.tdiv u 0x80 * 2 ^ 8)) ||| tou32 (Int.tdiv v 0x80)

/-- The small-triangle per-pixel shading step (lines 1966-2011), applied to
one pixel's `(color, depth)` pair after the edge tests have passed.  Also
returns whether the `assert(u < 0x8000) / assert(v < 0x8000)` pair held. -/
def smalltri_shade_pixel (cmd : tilecmd_drawsmalltri_t) (e0 e1 e2 : Int)
    (cd : Nat × Nat) : (Nat × Nat) × Bool :=
  let u := smalltri_uv cmd.rcp_triarea2 e2
  let v := smalltri_uv cmd.rcp_triarea2 e0
  let okuv := decide (u < 0x8000) && decide (v < 0x8000)
  let w := wrap32 (0x7FFF - u - v)
  let pz := clamp_pixel_Z cmd.min_Z cmd.max_Z
    (interp_pixel_Z cmd.vert_Zs0 cmd.vert_Zs1 cmd.vert_Zs2 u v)
  if pz < cd.2 then ((shade_color_word u v w, pz), okuv) else (cd, okuv)

/-- Small-triangle per-pixel operation including the three edge tests
(lines 1956-2011). -/
def smalltri_pixel_op (cmd : tilecmd_drawsmalltri_t) (e0 e1 e2 : Int)
    (dst_i : Nat) (st : RasterSt) : RasterSt :=
  if e0 ≥ 0 ∨ e1 ≥ 0 ∨ e2 ≥ 0 then st
  else
    let r := smalltri_shade_pixel cmd e0 e1 e2 (st.planes dst_i)
    { planes := fun px => if px = dst_i then r.1 else st.planes px,
      ok := st.ok && r.2 }

/-- The large-triangle per-pixel shading step (lines 2138-2187): only the
first `n` edges were tested; `u` is forced to 0 when `n < 3` and `v` when
`n < 1` (lines 2158-2163). -/
def largetri_shade_pixel (cmd : tilecmd_drawtile_t) (n : Nat) (e0 e1 e2 : Int)
    (cd : Nat × Nat) : (Nat × Nat) × Bool :=
  let u := if n < 3 then 0 else largetri_uv cmd.rcp_triarea2 e2
  let v := if n < 1 then 0 else largetri_uv cmd.rcp_triarea2 e0
  let okuv := decide (u < 0x8000) && decide (v < 0x8000)
  let w := wrap32 (0x7FFF - u - v)
  let pz := clamp_pixel_Z cmd.min_Z cmd.max_Z
    (interp_pixel_Z cmd.vert_Zs0 cmd.vert_Zs1 cmd.vert_Zs2 u v)
  if pz < cd.2 then ((shade_color_word u v w, pz), okuv) else (cd, okuv)

/-- Large-triangle per-pixel operation: edge tests over the first `n`
edges only (lines 2128-2136). -/
def largetri_pixel_op (cmd : tilecmd_drawtile_t) (n : Nat) (e0 e1 e2 : Int)
    (dst_i : Nat) (st : RasterSt) : RasterSt :=
  if (1 ≤ n ∧ e0 ≥ 0) ∨ (2 ≤ n ∧ e1 ≥ 0) ∨ (3 ≤ n ∧ e2 ≥ 0) then st
  else
    let r := largetri_shade_pixel cmd n e0 e1 e2 (st.planes dst_i)
    { planes := fun px => if px = dst_i then r.1 else st.planes px,
      ok := st.ok && r.2 }

/-! ## Coarse-block and tile consumers -/

/-- `draw_coarse_block_smalltri` (lines 1925-2028): walk the 16x16 pixels
of one coarse block in morton-swizzled order, testing and shading each. -/
def draw_coarse_block_smalltri (tile_id ctx cty : Nat)
    (cmd : tilecmd_drawsmalltri_t) (st : RasterSt) : RasterSt :=
  let tile_start_i := PIXELS_PER_TILE * tile_id
  let dxs : I3 := (cmd.edge_dxs0, cmd.edge_dxs1, cmd.edge_dxs2)
  let dys : I3 := (cmd.edge_dys0, cmd.edge_dys1, cmd.edge_dys2)
  let xbits0 := pdep_u32 ctx TILE_X_SWIZZLE_MASK
  let res := (List.range COARSE_BLOCK_WIDTH_IN_PIXELS).foldl
    (fun (acc : I3 × Nat × RasterSt) _ =>
      let edges := acc.1
      let ybits := acc.2.1
      let inner := (List.range COARSE_BLOCK_WIDTH_IN_PIXELS).foldl
        (fun (acc2 : I3 × Nat × RasterSt) _ =>
          let erow := acc2.1
          let xbits := acc2.2.1
          let dst_i := tile_start_i + (ybits ||| xbits)
          let st' := smalltri_pixel_op cmd erow.1 erow.2.1 erow.2.2 dst_i acc2.2.2
          (eadd3 erow dxs, (usub32 xbits TILE_X_SWIZZLE_MASK) &&& TILE_X_SWIZZLE_MASK, st'))
        (edges, xbits0, acc.2.2)
      (eadd3 edges dys, (usub32 ybits TILE_Y_SWIZZLE_MASK) &&& TILE_Y_SWIZZLE_MASK,
       inner.2.2))
    ((cmd.edges0, cmd.edges1, cmd.edges2), pdep_u32 cty TILE_Y_SWIZZLE_MASK, st)
  res.2.2

/-- `draw_tile_smalltri` (lines 2030-2093): offset the edges to the first
coarse block and walk the command's coarse-block range. -/
def draw_tile_smalltri (width_in_tiles tile_id : Nat)
    (cmd : tilecmd_drawsmalltri_t) (st : RasterSt) : RasterSt :=
  let cdx : I3 := (wrap32 (cmd.edge_dxs0 * 16), wrap32 (cmd.edge_dxs1 * 16),
                   wrap32 (cmd.edge_dxs2 * 16))
  let cdy : I3 := (wrap32 (cmd.edge_dys0 * 16), wrap32 (cmd.edge_dys1 * 16),
                   wrap32 (cmd.edge_dys2 * 16))
  let e0 : I3 :=
    (wrap32 (cmd.edges0 + cmd.first_coarse_x * cdx.1 + cmd.first_coarse_y * cdy.1),
     wrap32 (cmd.edges1 + cmd.first_coarse_x * cdx.2.1 + cmd.first_coarse_y * cdy.2.1),
     wrap32 (cmd.edges2 + cmd.first_coarse_x * cdx.2.2 + cmd.first_coarse_y * cdy.2.2))
  let tile_y := tile_id / width_in_tiles
  let tile_x := tile_id - tile_y * width_in_tiles
  let res := (intRange cmd.first_coarse_y cmd.last_coarse_y).foldl
    (fun (acc : I3 × RasterSt) cb_y =>
      let edges := acc.1
      let inner := (intRange cmd.first_coarse_x cmd.last_coarse_x).foldl
        (fun (acc2 : I3 × RasterSt) cb_x =>
          let row_edges := acc2.1
          let cbargs := { cmd with edges0 := row_edges.1, edges1 := row_edges.2.1, edges2 := row_edges.2.2 }
          let ctx := tou32 ((tile_x : Int) * 128 + cb_x * 16)
          let cty := tou32 ((tile_y : Int) * 128 + cb_y * 16)
          (eadd3 row_edges cdx,
           draw_coarse_block_smalltri tile_id ctx cty cbargs acc2.2))
        (edges, acc.2)
      (eadd3 edges cdy, inner.2))
    (e0, st)
  res.2

/-- `draw_coarse_block_largetri` (lines 2095-2203); edge slots at index
`≥ n` are uninitialized in the source and modelled as 0 (the consumer never
lets them influence the outcome: their tests are skipped and the `u`/`v`
derived from them are overridden). -/
def draw_coarse_block_largetri (tile_id ctx cty : Nat)
    (cmd : tilecmd_drawtile_t) (st : RasterSt) : RasterSt :=
  let n := cmd.tilecmd_id - 2
  let tile_start_i := PIXELS_PER_TILE * tile_id
  let dxs : I3 := (cmd.edge_dxs0, cmd.edge_dxs1, cmd.edge_dxs2)
  let dys : I3 := (cmd.edge_dys0, cmd.edge_dys1, cmd.edge_dys2)
  let e0 : I3 := (if 1 ≤ n then cmd.edges0 else 0,
                  if 2 ≤ n then cmd.edges1 else 0,
                  if 3 ≤ n then cmd.edges2 else 0)
  let xbits0 := pdep_u32 ctx TILE_X_SWIZZLE_MASK
  let res := (List.range COARSE_BLOCK_WIDTH_IN_PIXELS).foldl
    (fun (acc : I3 × Nat × RasterSt) _ =>
      let edges := acc.1
      let ybits := acc.2.1
      let inner := (List.range COARSE_BLOCK_WIDTH_IN_PIXELS).foldl
        (fun (acc2 : I3 × Nat × RasterSt) _ =>
          let erow := acc2.1
          let xbits := acc2.2.1
          let dst_i := tile_start_i + (ybits ||| xbits)
          let st' := largetri_pixel_op cmd n erow.1 erow.2.1 erow.2.2 dst_i acc2.2.2
          (eadd3n n erow dxs, (usub32 xbits TILE_X_SWIZZLE_MASK) &&& TILE_X_SWIZZLE_MASK, st'))
        (edges, xbits0, acc.2.2)
      (eadd3n n edges dys, (usub32 ybits TILE_Y_SWIZZLE_MASK) &&& TILE_Y_SWIZZLE_MASK,
       inner.2.2))
    (e0, pdep_u32 cty TILE_Y_SWIZZLE_MASK, st)
  res.2.2

/-- Trivial-reject / trivial-accept corner offset (lines 2227-2235): add the
coarse step components whose sign matches (`neg = true` picks the negative
components, for the most-inside corner). -/
def trivInit (e dx dy : Int) (neg : Bool) : Int :=
  let t := if (if neg then dx < 0 else dx > 0) then wrap32 (e + dx) else e
  if (if neg then dy < 0 else dy > 0) then wrap32 (t + dy) else t

/-- Build the per-coarse-block command of `draw_tile_largetri`
(lines 2272-2304): copy the incoming command, set the tag from the number
of edges still needing tests, and rotate the needed edges to the front.
Fields at index `≥ nt` keep the copied values. -/
def largetri_cbargs (c : tilecmd_drawtile_t) (nt rot : Nat) (row : I3) : tilecmd_drawtile_t :=
  let dxs : I3 := (c.edge_dxs0, c.edge_dxs1, c.edge_dxs2)
  let dys : I3 := (c.edge_dys0, c.edge_dys1, c.edge_dys2)
  { c with
    tilecmd_id := 2 + nt
    edges0 := if 1 ≤ nt then t3get row (rot % 3) else c.edges0
    edges1 := if 2 ≤ nt then t3get row ((1 + rot) % 3) else c.edges1
    edges2 := if 3 ≤ nt then t3get row ((2 + rot) % 3) else c.edges2
    edge_dxs0 := if 1 ≤ nt then t3get dxs (rot % 3) else c.edge_dxs0
    edge_dxs1 := if 2 ≤ nt then t3get dxs ((1 + rot) % 3) else c.edge_dxs1
    edge_dxs2 := if 3 ≤ nt then t3get dxs ((2 + rot) % 3) else c.edge_dxs2
    edge_dys0 := if 1 ≤ nt then t3get dys (rot % 3) else c.edge_dys0
    edge_dys1 := if 2 ≤ nt then t3get dys ((1 + rot) % 3) else c.edge_dys1
    edge_dys2 := if 3 ≤ nt then t3get dys ((2 + rot) % 3) else c.edge_dys2 }

/-- `draw_tile_largetri` (lines 2205-2339): walk all 8x8 coarse blocks of a
tile with incremental trivial-reject / trivial-accept corner values, skip
rejected blocks, and re-dispatch each surviving block with only the edges
that still need per-pixel tests (rotated to the front). -/
def draw_tile_largetri (width_in_tiles tile_id : Nat)
    (cmd : tilecmd_drawtile_t) (st : RasterSt) : RasterSt :=
  let n := cmd.tilecmd_id - 2
  let cdx : I3 := (wrap32 (cmd.edge_dxs0 * 16), wrap32 (cmd.edge_dxs1 * 16),
                   wrap32 (cmd.edge_dxs2 * 16))
  let cdy : I3 := (wrap32 (cmd.edge_dys0 * 16), wrap32 (cmd.edge_dys1 * 16),
                   wrap32 (cmd.edge_dys2 * 16))
  let e0 : I3 := (if 1 ≤ n then cmd.edges0 else 0,
                  if 2 ≤ n then cmd.edges1 else 0,
                  if 3 ≤ n then cmd.edges2 else 0)
  let rej0 : I3 := (if 1 ≤ n then trivInit e0.1 cdx.1 cdy.1 true else 0,
                    if 2 ≤ n then trivInit e0.2.1 cdx.2.1 cdy.2.1 true else 0,
                    if 3 ≤ n then trivInit e0.2.2 cdx.2.2 cdy.2.2 true else 0)
  let acc0 : I3 := (if 1 ≤ n then trivInit e0.1 cdx.1 cdy.1 false else 0,
                    if 2 ≤ n then trivInit e0.2.1 cdx.2.1 cdy.2.1 false else 0,
                    if 3 ≤ n then trivInit e0.2.2 cdx.2.2 cdy.2.2 false else 0)
  let tile_y := tile_id / width_in_tiles
  let tile_x := tile_id - tile_y * width_in_tiles
  let res := (List.range TILE_WIDTH_IN_COARSE_BLOCKS).foldl
    (fun (acc : (I3 × I3 × I3) × RasterSt) cb_y =>
      let edges := acc.1.1
      let rejs := acc.1.2.1
      let accs := acc.1.2.2
      let inner := (List.range TILE_WIDTH_IN_COARSE_BLOCKS).foldl
        (fun (acc2 : (I3 × I3 × I3) × RasterSt) cb_x =>
          let row_edges := acc2.1.1
          let row_rejs := acc2.1.2.1
          let row_accs := acc2.1.2.2
          let rejected := (1 ≤ n ∧ row_rejs.1 ≥ 0) ∨ (2 ≤ n ∧ row_rejs.2.1 ≥ 0) ∨
                          (3 ≤ n ∧ row_rejs.2.2 ≥ 0)
          let st' :=
            if rejected then acc2.2
            else
              let need0 := 1 ≤ n ∧ row_accs.1 ≥ 0
              let need1 := 2 ≤ n ∧ row_accs.2.1 ≥ 0
              let need2 := 3 ≤ n ∧ row_accs.2.2 ≥ 0
              let nt := (if need0 then 1 else 0) + (if need1 then 1 else 0) +
                        (if need2 then 1 else 0)
              let rot :=
                if nt = 1 then (if need1 then 1 else if need2 then 2 else 0)
                else if nt = 2 then (if ¬need0 then 1 else if ¬need1 then 2 else 0)
                else 0
              let cbargs := largetri_cbargs cmd nt rot row_edges
              let ctx := tou32 ((tile_x : Int) * 128 + (cb_x : Int) * 16)
              let cty := tou32 ((tile_y : Int) * 128 + (cb_y : Int) * 16)
              draw_coarse_block_largetri tile_id ctx cty cbargs acc2.2
          ((eadd3n n row_edges cdx, eadd3n n row_rejs cdx, eadd3n n row_accs cdx), st'))
        ((edges, rejs, accs), acc.2)
      ((eadd3n n edges cdy, eadd3n n rejs cdy, eadd3n n accs cdy), inner.2))
    ((e0, rej0, acc0), st)
  res.2

/-- `clear_tile` (lines 2341-2355): fill the tile's color words with the
given value and its depth words with `0xFFFFFFFF`. -/
def clear_tile (color : Nat) (tile_id : Nat) (p : Planes) : Planes :=
  fun px =>
    if PIXELS_PER_TILE * tile_id ≤ px ∧ px < PIXELS_PER_TILE * tile_id + PIXELS_PER_TILE
    then (color, 0xFFFFFFFF)
    else p px

/-! ## Command (de)serialization to dwords -/

/-- Dwords of a `tilecmd_drawsmalltri_t` in struct layout order (20 dwords). -/
def tilecmd_drawsmalltri_dwords (c : tilecmd_drawsmalltri_t) : List Nat :=
  [1, tou32 c.edges0, tou32 c.edges1, tou32 c.edges2,
   tou32 c.edge_dxs0, tou32 c.edge_dxs1, tou32 c.edge_dxs2,
   tou32 c.edge_dys0, tou32 c.edge_dys1, tou32 c.edge_dys2,
   tou32 c.vert_Zs0, tou32 c.vert_Zs1, tou32 c.vert_Zs2,
   c.max_Z % 2 ^ 32, c.min_Z % 2 ^ 32, c.rcp_triarea2 % 2 ^ 32,
   tou32 c.first_coarse_x, tou32 c.last_coarse_x,
   tou32 c.first_coarse_y, tou32 c.last_coarse_y]

/-- Dwords of a `tilecmd_drawtile_t` in struct layout order (16 dwords). -/
def tilecmd_drawtile_dwords (c : tilecmd_drawtile_t) : List Nat :=
  [c.tilecmd_id % 2 ^ 32, tou32 c.edges0, tou32 c.edges1, tou32 c.edges2,
   tou32 c.edge_dxs0, tou32 c.edge_dxs1, tou32 c.edge_dxs2,
   tou32 c.edge_dys0, tou32 c.edge_dys1, tou32 c.edge_dys2,
   tou32 c.vert_Zs0, tou32 c.vert_Zs1, tou32 c.vert_Zs2,
   c.max_Z % 2 ^ 32, c.min_Z % 2 ^ 32, c.rcp_triarea2 % 2 ^ 32]

/-- Dwords of a `tilecmd_cleartile_t` (2 dwords). -/
def tilecmd_cleartile_dwords (color : Nat) : List Nat := [6, color % 2 ^ 32]

/-- Read a dword as a signed 32-bit field. -/
def gI (ws : List Nat) (i : Nat) : Int := asI32 (ws.getD i 0)

/-- Read a dword as an unsigned 32-bit field. -/
def gN (ws : List Nat) (i : Nat) : Nat := ws.getD i 0 % 2 ^ 32

/-- Decode a `tilecmd_drawsmalltri_t` from its 20 dwords. -/
def decode_drawsmalltri (ws : List Nat) : tilecmd_drawsmalltri_t :=
  { edges0 := gI ws 1, edges1 := gI ws 2, edges2 := gI ws 3,
    edge_dxs0 := gI ws 4, edge_dxs1 := gI ws 5, edge_dxs2 := gI ws 6,
    edge_dys0 := gI ws 7, edge_dys1 := gI ws 8, edge_dys2 := gI ws 9,
    vert_Zs0 := gI ws 10, vert_Zs1 := gI ws 11, vert_Zs2 := gI ws 12,
    max_Z := gN ws 13, min_Z := gN ws 14, rcp_triarea2 := gN ws 15,
    first_coarse_x := gI ws 16, last_coarse_x := gI ws 17,
    first_coarse_y := gI ws 18, last_coarse_y := gI ws 19 }

/-- Decode a `tilecmd_drawtile_t` from its 16 dwords. -/
def decode_drawtile (ws : List Nat) : tilecmd_drawtile_t :=
  { tilecmd_id := gN ws 0,
    edges0 := gI ws 1, edges1 := gI ws 2, edges2 := gI ws 3,
    edge_dxs0 := gI ws 4, edge_dxs1 := gI ws 5, edge_dxs2 := gI ws 6,
    edge_dys0 := gI ws 7, edge_dys1 := gI ws 8, edge_dys2 := gI ws 9,
    vert_Zs0 := gI ws 10, vert_Zs1 := gI ws 11, vert_Zs2 := gI ws 12,
    max_Z := gN ws 13, min_Z := gN ws 14, rcp_triarea2 := gN ws 15 }

/-- Dispatch one tile command given as dwords (the command-execution part
of `framebuffer_resolve_tile`, lines 2400-2431). -/
def apply_tilecmd (width_in_tiles tile_id : Nat) (st : RasterSt) (ws : List Nat) : RasterSt :=
  let tag := ws.getD 0 0
  if tag = 1 then draw_tile_smalltri width_in_tiles tile_id (decode_drawsmalltri ws) st
  else if 2 ≤ tag ∧ tag ≤ 5 then
    draw_tile_largetri width_in_tiles tile_id (decode_drawtile ws) st
  else if tag = 6 then { st with planes := clear_tile (ws.getD 1 0) tile_id st.planes }
  else st

/-- Run a list of tile commands in order on the planes. -/
def apply_tilecmds (width_in_tiles tile_id : Nat) (cs : List (List Nat))
    (st : RasterSt) : RasterSt :=
  cs.foldl (apply_tilecmd width_in_tiles tile_id) st

/-! ## Clip-space vertices and clipping interpolation -/

/-- `xyzw_i32_t`: one clip-space (or window-space) vertex, four Q16.16
(resp. Q16.8) components. -/
structure xyzw_i32_t where
  x : Int
  y : Int
  z : Int
  w : Int
  deriving DecidableEq, Repr

/-- A triangle: the `clipVerts[3]` array. -/
structure tri_t where
  v0 : xyzw_i32_t
  v1 : xyzw_i32_t
  v2 : xyzw_i32_t
  deriving DecidableEq, Repr

/-- `clipVerts[i]` (callers pass `i` already reduced mod 3). -/
def tri_get (t : tri_t) : Nat → xyzw_i32_t
  | 0 => t.v0
  | 1 => t.v1
  | _ => t.v2

/-- `clipVerts[i] = v`. -/
def tri_set (t : tri_t) (i : Nat) (v : xyzw_i32_t) : tri_t :=
  match i with
  | 0 => { t with v0 := v }
  | 1 => { t with v1 := v }
  | _ => { t with v2 := v }

/-- Near-plane edge interpolation (rasterizer.cpp lines 2712-2727 and
2740-2758): `a = z_from / (z_from - z_to)`, result `(1-a)·from + a·to`
with `z` forced to 0. -/
def near_interp_vertex (vfrom vto : xyzw_i32_t) : xyzw_i32_t :=
  let a := s1516_div vfrom.z (wrap32 (vfrom.z - vto.z))
  let one_minus_a := wrap32 (s1516_int 1 - a)
  { x := wrap32 (s1516_mul one_minus_a vfrom.x + s1516_mul a vto.x)
    y := wrap32 (s1516_mul one_minus_a vfrom.y + s1516_mul a vto.y)
    z := 0
    w := wrap32 (s1516_mul one_minus_a vfrom.w + s1516_mul a vto.w) }

/-- Far-plane edge interpolation (lines 2802-2817 and 2830-2848):
`a = (z-w)_from / ((z-w)_from - (z-w)_to)`, result `(1-a)·from + a·to`
with `z` forced to `w - 1`. -/
def far_interp_vertex (vfrom vto : xyzw_i32_t) : xyzw_i32_t :=
  let zwf := wrap32 (vfrom.z - vfrom.w)
  let zwt := wrap32 (vto.z - vto.w)
  let a := s1516_div zwf (wrap32 (zwf - zwt))
  let one_minus_a := wrap32 (s1516_int 1 - a)
  let w := wrap32 (s1516_mul one_minus_a vfrom.w + s1516_mul a vto.w)
  { x := wrap32 (s1516_mul one_minus_a vfrom.x + s1516_mul a vto.x)
    y := wrap32 (s1516_mul one_minus_a vfrom.y + s1516_mul a vto.y)
    z := wrap32 (w - 1)
    w := w }

/-! ## Window transform and triangle setup -/

/-- Framebuffer dimensions (the parts of `framebuffer_t` that triangle
setup reads). -/
structure fbdims_t where
  width_in_pixels : Int
  height_in_pixels : Int
  deriving DecidableEq, Repr

/-- `width_in_tiles` as computed in `new_framebuffer` (lines 1865-1869):
pad to a multiple of 128, divide by 128. -/
def width_in_tiles (fb : fbdims_t) : Int := Int.tdiv (fb.width_in_pixels + 127) 128

/-- `height_in_tiles` as computed in `new_framebuffer`. -/
def height_in_tiles (fb : fbdims_t) : Int := Int.tdiv (fb.height_in_pixels + 127) 128

/-- Clip-space to window transform of one vertex (lines 2876-2891).
Returns the window vertex (x, y as Q16.8; z as Q16.16; w kept) and
`one_over_w`. -/
def transform_vertex (fb : fbdims_t) (v : xyzw_i32_t) : xyzw_i32_t × Int :=
  let one_over_w := s1516_div (s1516_int 1) v.w
  let x := s168_s1516 (s1516_mul (s1516_div (s1516_add (s1516_mul v.x one_over_w)
    (s1516_int 1)) (s1516_int 2)) (s1516_int fb.width_in_pixels))
  let y := s168_s1516 (s1516_mul (s1516_div (s1516_add (s1516_mul (wrap32 (-v.y)) one_over_w)
    (s1516_int 1)) (s1516_int 2)) (s1516_int fb.height_in_pixels))
  let z := s1516_mul v.z one_over_w
  ({ x := x, y := y, z := z, w := v.w }, one_over_w)

/-- The top-left-rule test as written in the source (lines 3058 and 3367):
the edge from `(vx, vy)` to `(v1x, v1y)` is nudged outward iff it is
horizontal with `vx < v1x`, or has `vy > v1y`. -/
def edge_delta_applies (vx vy v1x v1y : Int) : Bool :=
  (decide (vy = v1y) && decide (vx < v1x)) || decide (v1y < vy)

/-- Small-path edge equation at the sample point (0.5, 0.5) relative to the
last tile, before the top-left adjustment and the `>> 8` truncation
(line 3055). -/
def small_edge_raw (vx vy v1x v1y : Int) : Int :=
  let edge_dx := v1y - vy
  let edge_dy := vx - v1x
  (0x80 - vx) * edge_dx - (0x80 - vy) * (-edge_dy)

/-- Small-path edge equation after the top-left adjustment, still before
the `>> 8` truncation (lines 3055-3058). -/
def small_edge_preshift (vx vy v1x v1y : Int) : Int :=
  small_edge_raw vx vy v1x v1y - (if edge_delta_applies vx vy v1x v1y then 1 else 0)

/-- Large-path edge equation at the first tile's (+0.5, +0.5) sample,
64-bit, before the top-left adjustment and truncation (line 3364). -/
def large_edge_raw (ftx fty vx vy v1x v1y : Int) : Int :=
  let edge_dx := v1y - vy
  let edge_dy := vx - v1x
  (ftx + 0x80 - vx) * edge_dx - (fty + 0x80 - vy) * (-edge_dy)

/-- Large-path edge equation after the top-left adjustment (lines
3364-3367). -/
def large_edge_preshift (ftx fty vx vy v1x v1y : Int) : Int :=
  large_edge_raw ftx fty vx vy v1x v1y -
    (if edge_delta_applies vx vy v1x v1y then 1 else 0)

/-- Left/right rotation of a triple, as performed by the max-slope vertex
rotation (lines 3082-3133): `k = 1` maps `[a,b,c]` to `[b,c,a]`,
`k = 2` maps `[a,b,c]` to `[c,a,b]`. -/
def rot3 (k : Nat) (t : I3) : I3 :=
  if k = 1 then (t.2.1, t.2.2, t.1)
  else if k = 2 then (t.2.2, t.1, t.2.1)
  else t

/-- Component-wise 64-bit add (no wrapping; the large path uses `int64_t`). -/
def add3 (e d : I3) : I3 := (e.1 + d.1, e.2.1 + d.2.1, e.2.2 + d.2.2)

/-- 64-bit trivial-reject/accept corner offset (lines 3384-3392). -/
def trivInit64 (e dx dy : Int) (neg : Bool) : Int :=
  let t := if (if neg then dx < 0 else dx > 0) then e + dx else e
  if (if neg then dy < 0 else dy > 0) then t + dy else t

/-- Assemble a `tilecmd_drawsmalltri_t` from the setup values. -/
def mk_smallcmd (edges dxs dys vertZ : I3) (maxZ minZ rcp : Nat)
    (fcx lcx fcy lcy : Int) : tilecmd_drawsmalltri_t :=
  { edges0 := edges.1
    edges1 := edges.2.1
    edges2 := edges.2.2
    edge_dxs0 := dxs.1
    edge_dxs1 := dxs.2.1
    edge_dxs2 := dxs.2.2
    edge_dys0 := dys.1
    edge_dys1 := dys.2.1
    edge_dys2 := dys.2.2
    vert_Zs0 := vertZ.1
    vert_Zs1 := vertZ.2.1
    vert_Zs2 := vertZ.2.2
    max_Z := maxZ
    min_Z := minZ
    rcp_triarea2 := rcp
    first_coarse_x := fcx
    last_coarse_x := lcx
    first_coarse_y := fcy
    last_coarse_y := lcy }

/-- Assemble a `tilecmd_drawtile_t` from the setup values.  The source
never writes `vert_Zs` in the large-triangle setup (they are uninitialized
stack memory in the pushed command); they are modelled as 0. -/
def mk_largecmd (tag : Nat) (edges dxs dys : I3) (maxZ minZ rcp : Nat) : tilecmd_drawtile_t :=
  { tilecmd_id := tag
    edges0 := edges.1
    edges1 := edges.2.1
    edges2 := edges.2.2
    edge_dxs0 := dxs.1
    edge_dxs1 := dxs.2.1
    edge_dxs2 := dxs.2.2
    edge_dys0 := dys.1
    edge_dys1 := dys.2.1
    edge_dys2 := dys.2.2
    vert_Zs0 := 0
    vert_Zs1 := 0
    vert_Zs2 := 0
    max_Z := maxZ
    min_Z := minZ
    rcp_triarea2 := rcp }

/-- Small-triangle setup (rasterizer.cpp lines 2951-3282): rebase the
vertices to the last overlapped tile, build the edge equations with the
top-left rule, the pseudo-float reciprocal of 2*area, rotate by the
max-slope vertex, and emit one `draw_small` command per overlapped tile.
Returns the `(tile_id, dwords)` pushes in source order. -/
def smalltri_setup (fb : fbdims_t) (verts0 : tri_t) (min_Z max_Z : Nat)
    (bbox_min_x bbox_max_x bbox_min_y bbox_max_y : Int) : List (Int × List Nat) :=
  let first_tile_x := Int.tdiv (sar bbox_min_x 8) 128
  let first_tile_y := Int.tdiv (sar bbox_min_y 8) 128
  let last_tile_x := Int.tdiv (sar bbox_max_x 8) 128
  let last_tile_y := Int.tdiv (sar bbox_max_y 8) 128
  let first_tile_px_x := first_tile_x * 256 * 128
  let first_tile_px_y := first_tile_y * 256 * 128
  let last_tile_px_x := last_tile_x * 256 * 128
  let last_tile_px_y := last_tile_y * 256 * 128
  let first_rel_cb_x := Int.tdiv (sar (bbox_min_x - first_tile_px_x) 8) 16
  let first_rel_cb_y := Int.tdiv (sar (bbox_min_y - first_tile_px_y) 8) 16
  let last_rel_cb_x := Int.tdiv (sar (bbox_max_x - first_tile_px_x) 8) 16
  let last_rel_cb_y := Int.tdiv (sar (bbox_max_y - first_tile_px_y) 8) 16
  let rebase := fun (v : xyzw_i32_t) =>
    { v with x := v.x - last_tile_px_x, y := v.y - last_tile_px_y }
  let verts := tri_t.mk (rebase verts0.v0) (rebase verts0.v1) (rebase verts0.v2)
  let triarea2 := sar ((verts.v1.x - verts.v0.x) * (verts.v2.y - verts.v0.y) -
    (verts.v1.y - verts.v0.y) * (verts.v2.x - verts.v0.x)) 8
  if triarea2 = 0 then []
  else
    let doswap := triarea2 < 0
    let verts := if doswap then tri_t.mk verts.v0 verts.v2 verts.v1 else verts
    let triarea2 := if doswap then -triarea2 else triarea2
    let triarea2_mantissa_rshift : Int := (23 : Int) - (lzcnt triarea2.toNat : Int)
    let triarea2_mantissa :=
      if triarea2_mantissa_rshift < 0 then
        wrap32 (triarea2 * 2 ^ (-triarea2_mantissa_rshift).toNat)
      else sar triarea2 triarea2_mantissa_rshift.toNat
    let rcp_m0 := Int.tdiv 0xFFFF triarea2_mantissa
    let rcp_rshift : Int := (24 : Int) - (lzcnt rcp_m0.toNat : Int)
    let rcp_m1 :=
      if rcp_rshift < 0 then wrap32 (rcp_m0 * 2 ^ (-rcp_rshift).toNat)
      else sar rcp_m0 rcp_rshift.toNat
    let rcp_mN : Nat := tou32 rcp_m1 &&& 0xFF
    let rcp_exponent : Nat := tou32 (127 + triarea2_mantissa_rshift - rcp_rshift)
    let rcp : Nat := ((rcp_exponent <<< 8) % 2 ^ 32) ||| rcp_mN
    let v0 := verts.v0
    let v1 := verts.v1
    let v2 := verts.v2
    let dxs : I3 := (v1.y - v0.y, v2.y - v1.y, v0.y - v2.y)
    let dys : I3 := (v0.x - v1.x, v1.x - v2.x, v2.x - v0.x)
    let edges : I3 := (sar (small_edge_preshift v0.x v0.y v1.x v1.y) 8,
                       sar (small_edge_preshift v1.x v1.y v2.x v2.y) 8,
                       sar (small_edge_preshift v2.x v2.y v0.x v0.y) 8)
    let vertZ : I3 := (v0.z, v1.z, v2.z)
    let slope_for := fun (i : Nat) =>
      let vi := (i + 1) % 3
      t3get dxs vi * t3get dxs 1 + t3get dys vi * t3get dys vi
    let pick := (List.range 3).foldl
      (fun (acc : Int × Int) i =>
        if slope_for i > acc.2 then ((i : Int), slope_for i) else acc)
      (-1, 0)
    let rotk : Nat := if pick.1 = 1 then 1 else if pick.1 = 2 then 2 else 0
    let edges := rot3 rotk edges
    let dxs := rot3 rotk dxs
    let dys := rot3 rotk dys
    let vertZ := rot3 rotk vertZ
    let wt := width_in_tiles fb
    let ht := height_in_tiles fb
    let first_tile_id := first_tile_y * wt + first_tile_x
    let clamp_lo := fun (x : Int) => if x < 0 then 0 else x
    let clamp_hi := fun (x : Int) => if x ≥ 8 then 7 else x
    let p1 :=
      if first_tile_x ≥ 0 ∧ first_tile_y ≥ 0 then
        let dd := fun (dx dy e : Int) =>
          wrap32 (e + (dx * (first_tile_x - last_tile_x) + dy * (first_tile_y - last_tile_y)) * 128)
        let e : I3 := (dd dxs.1 dys.1 edges.1, dd dxs.2.1 dys.2.1 edges.2.1,
                       dd dxs.2.2 dys.2.2 edges.2.2)
        [(first_tile_id, tilecmd_drawsmalltri_dwords (mk_smallcmd e dxs dys vertZ
          max_Z min_Z rcp (clamp_lo first_rel_cb_x) (clamp_hi last_rel_cb_x)
          (clamp_lo first_rel_cb_y) (clamp_hi last_rel_cb_y)))]
      else []
    let p2 :=
      if last_tile_x > first_tile_x ∧ last_tile_x < wt ∧ first_tile_y ≥ 0 then
        let dd := fun (dy e : Int) => wrap32 (e + dy * (first_tile_y - last_tile_y) * 128)
        let e : I3 := (dd dys.1 edges.1, dd dys.2.1 edges.2.1, dd dys.2.2 edges.2.2)
        [(first_tile_id + 1, tilecmd_drawsmalltri_dwords (mk_smallcmd e dxs dys vertZ
          max_Z min_Z rcp 0 (clamp_hi (last_rel_cb_x - 8))
          (clamp_lo first_rel_cb_y) (clamp_hi last_rel_cb_y)))]
      else []
    let p3 :=
      if last_tile_y > first_tile_y ∧ first_tile_x ≥ 0 ∧ last_tile_y < ht then
        let dd := fun (dx e : Int) => wrap32 (e + dx * (first_tile_x - last_tile_x) * 128)
        let e : I3 := (dd dxs.1 edges.1, dd dxs.2.1 edges.2.1, dd dxs.2.2 edges.2.2)
        [(first_tile_id + wt, tilecmd_drawsmalltri_dwords (mk_smallcmd e dxs dys vertZ
          max_Z min_Z rcp (clamp_lo first_rel_cb_x) (clamp_hi last_rel_cb_x)
          0 (clamp_hi (last_rel_cb_y - 8))))]
      else []
    let p4 :=
      if last_tile_x > first_tile_x ∧ last_tile_y > first_tile_y ∧
         last_tile_x < wt ∧ last_tile_y < ht then
        [(first_tile_id + 1 + wt, tilecmd_drawsmalltri_dwords (mk_smallcmd edges dxs dys vertZ
          max_Z min_Z rcp 0 (clamp_hi (last_rel_cb_x - 8)) 0 (clamp_hi (last_rel_cb_y - 8))))]
      else []
    p1 ++ p2 ++ p3 ++ p4

/-- Large-triangle setup (lines 3283-3484): walk the tiles of the clamped
bbox with 64-bit edge equations and trivial accept/reject corners, and
emit one `draw_tile_N` command per non-rejected tile, with the `N` edges
still needing tests rotated to the front. -/
def largetri_setup (fb : fbdims_t) (verts0 : tri_t) (min_Z max_Z : Nat)
    (cb_min_x cb_max_x cb_min_y cb_max_y : Int) : List (Int × List Nat) :=
  let first_tile_x := Int.tdiv (sar cb_min_x 8) 128
  let first_tile_y := Int.tdiv (sar cb_min_y 8) 128
  let last_tile_x := Int.tdiv (sar cb_max_x 8) 128
  let last_tile_y := Int.tdiv (sar cb_max_y 8) 128
  let first_tile_px_x := first_tile_x * 256 * 128
  let first_tile_px_y := first_tile_y * 256 * 128
  let triarea2 := sar ((verts0.v1.x - verts0.v0.x) * (verts0.v2.y - verts0.v0.y) -
    (verts0.v1.y - verts0.v0.y) * (verts0.v2.x - verts0.v0.x)) 8
  if triarea2 = 0 then []
  else
    let doswap := triarea2 < 0
    let verts := if doswap then tri_t.mk verts0.v0 verts0.v2 verts0.v1 else verts0
    let triarea2 := if doswap then -triarea2 else triarea2
    let m_rshift : Int := (47 : Int) - (lzcnt64 triarea2.toNat : Int)
    let mantissa :=
      if m_rshift < 0 then wrap32 (triarea2 * 2 ^ (-m_rshift).toNat)
      else wrap32 (sar triarea2 m_rshift.toNat)
    let rcp_m0 := Int.tdiv 0xFFFFFFFF mantissa
    let rcp_rshift : Int := (16 : Int) - (lzcnt rcp_m0.toNat : Int)
    let rcp_m1 :=
      if rcp_rshift < 0 then wrap32 (rcp_m0 * 2 ^ (-rcp_rshift).toNat)
      else sar rcp_m0 rcp_rshift.toNat
    let rcp_mN : Nat := tou32 rcp_m1 &&& 0xFFFF
    let rcp_exponent : Nat := tou32 (127 + m_rshift - rcp_rshift)
    let rcp : Nat := ((rcp_exponent <<< 16) % 2 ^ 32) ||| rcp_mN
    let v0 := verts.v0
    let v1 := verts.v1
    let v2 := verts.v2
    let dxs : I3 := (v1.y - v0.y, v2.y - v1.y, v0.y - v2.y)
    let dys : I3 := (v0.x - v1.x, v1.x - v2.x, v2.x - v0.x)
    let edges : I3 :=
      (sar (large_edge_preshift first_tile_px_x first_tile_px_y v0.x v0.y v1.x v1.y) 8,
       sar (large_edge_preshift first_tile_px_x first_tile_px_y v1.x v1.y v2.x v2.y) 8,
       sar (large_edge_preshift first_tile_px_x first_tile_px_y v2.x v2.y v0.x v0.y) 8)
    let tdx : I3 := (dxs.1 * 128, dxs.2.1 * 128, dxs.2.2 * 128)
    let tdy : I3 := (dys.1 * 128, dys.2.1 * 128, dys.2.2 * 128)
    let rejs : I3 := (trivInit64 edges.1 tdx.1 tdy.1 true,
                      trivInit64 edges.2.1 tdx.2.1 tdy.2.1 true,
                      trivInit64 edges.2.2 tdx.2.2 tdy.2.2 true)
    let accs : I3 := (trivInit64 edges.1 tdx.1 tdy.1 false,
                      trivInit64 edges.2.1 tdx.2.1 tdy.2.1 false,
                      trivInit64 edges.2.2 tdx.2.2 tdy.2.2 false)
    let wt := width_in_tiles fb
    let res := (intRange first_tile_y last_tile_y).foldl
      (fun (acc : (I3 × I3 × I3) × List (Int × List Nat)) tile_y =>
        let inner := (intRange first_tile_x last_tile_x).foldl
          (fun (acc2 : (I3 × I3 × I3) × List (Int × List Nat)) tile_x =>
            let te := acc2.1.1
            let trj := acc2.1.2.1
            let tac := acc2.1.2.2
            let pushes :=
              if trj.1 ≥ 0 ∨ trj.2.1 ≥ 0 ∨ trj.2.2 ≥ 0 then acc2.2
              else
                let need0 := decide (tac.1 ≥ 0)
                let need1 := decide (tac.2.1 ≥ 0)
                let need2 := decide (tac.2.2 ≥ 0)
                let nt := (if need0 then 1 else 0) + (if need1 then 1 else 0) +
                          (if need2 then 1 else 0)
                let rot : Nat :=
                  if nt = 1 then (if need1 then 1 else if need2 then 2 else 0)
                  else if nt = 2 then (if !need0 then 1 else if !need1 then 2 else 0)
                  else 0
                let re := rot3 rot te
                let rdx := rot3 rot dxs
                let rdy := rot3 rot dys
                let e32 : I3 := (wrap32 re.1, wrap32 re.2.1, wrap32 re.2.2)
                let dx32 : I3 := (wrap32 rdx.1, wrap32 rdx.2.1, wrap32 rdx.2.2)
                let dy32 : I3 := (wrap32 rdy.1, wrap32 rdy.2.1, wrap32 rdy.2.2)
                let tile_i := tile_y * wt + tile_x
                acc2.2 ++ [(tile_i, tilecmd_drawtile_dwords
                  (mk_largecmd (2 + nt) e32 dx32 dy32 max_Z min_Z rcp))]
            ((add3 te tdx, add3 trj tdx, add3 tac tdx), pushes))
          (acc.1, acc.2)
        ((add3 acc.1.1 tdy, add3 acc.1.2.1 tdy, add3 acc.1.2.2 tdy), inner.2))
      ((edges, rejs, accs), [])
    res.2

/-- Common setup (lines 2871-2947) followed by the small/large dispatch:
window transform, min/max Z, bounding box, scissor discard, size
classification.  Returns the list of `(tile_id, dwords)` pushes this
triangle performs (empty on any discard).  The `rcp_ws` array of the
source is computed and swapped alongside the vertices but never reaches
any emitted command, so it is not tracked. -/
def setup_pushes (fb : fbdims_t) (tri : tri_t) : List (Int × List Nat) :=
  let t0 := transform_vertex fb tri.v0
  let t1 := transform_vertex fb tri.v1
  let t2 := transform_vertex fb tri.v2
  let verts := tri_t.mk t0.1 t1.1 t2.1
  let z0 := tou32 verts.v0.z
  let z1 := tou32 verts.v1.z
  let z2 := tou32 verts.v2.z
  let min_Z := if z1 < z0 then z1 else z0
  let min_Z := if z2 < min_Z then z2 else min_Z
  let max_Z := if z1 > z0 then z1 else z0
  let max_Z := if z2 > max_Z then z2 else max_Z
  let bbox_min_x := if verts.v1.x < verts.v0.x then verts.v1.x else verts.v0.x
  let bbox_min_x := if verts.v2.x < bbox_min_x then verts.v2.x else bbox_min_x
  let bbox_max_x := if verts.v1.x > verts.v0.x then verts.v1.x else verts.v0.x
  let bbox_max_x := if verts.v2.x > bbox_max_x then verts.v2.x else bbox_max_x
  let bbox_min_y := if verts.v1.y < verts.v0.y then verts.v1.y else verts.v0.y
  let bbox_min_y := if verts.v2.y < bbox_min_y then verts.v2.y else bbox_min_y
  let bbox_max_y := if verts.v1.y > verts.v0.y then verts.v1.y else verts.v0.y
  let bbox_max_y := if verts.v2.y > bbox_max_y then verts.v2.y else bbox_max_y
  if bbox_max_x < 0 ∨ bbox_max_y < 0 ∨
     bbox_min_x ≥ fb.width_in_pixels * 256 ∨ bbox_min_y ≥ fb.height_in_pixels * 256 then []
  else
    let cb_min_x := if bbox_min_x < 0 then 0 else bbox_min_x
    let cb_min_y := if bbox_min_y < 0 then 0 else bbox_min_y
    let cb_max_x := if bbox_max_x ≥ fb.width_in_pixels * 256 then
      fb.width_in_pixels * 256 - 1 else bbox_max_x
    let cb_max_y := if bbox_max_y ≥ fb.height_in_pixels * 256 then
      fb.height_in_pixels * 256 - 1 else bbox_max_y
    let is_large := bbox_max_x - bbox_min_x ≥ 128 * 256 ∨ bbox_max_y - bbox_min_y ≥ 128 * 256
    if is_large then largetri_setup fb verts min_Z max_Z cb_min_x cb_max_x cb_min_y cb_max_y
    else smalltri_setup fb verts min_Z max_Z bbox_min_x bbox_max_x bbox_min_y bbox_max_y

/-- `rasterize_triangle` (lines 2676-3495), with explicit recursion fuel:
near clipping (discard / shorten / split-and-recurse), then far clipping
(likewise), then setup.  Returns `none` when the fuel does not cover the
recursion depth actually needed, otherwise the `(tile_id, dwords)` pushes
performed by this call and its recursive calls, in source order. -/
def rasterize_triangle (fb : fbdims_t) : Nat → tri_t → Option (List (Int × List Nat))
  | 0, _ => none
  | fuel + 1, tri0 =>
    let n0 := decide (tri0.v0.z < 0)
    let n1 := decide (tri0.v1.z < 0)
    let n2 := decide (tri0.v2.z < 0)
    let num_near := (if n0 then 1 else 0) + (if n1 then 1 else 0) + (if n2 then 1 else 0)
    if num_near = 3 then some []
    else
      let tri1 :=
        if num_near = 2 then
          let uv := if !n1 then 1 else if !n2 then 2 else 0
          let i1 := (uv + 1) % 3
          let i2 := (uv + 2) % 3
          let keep := tri_get tri0 uv
          tri_set (tri_set tri0 i1 (near_interp_vertex keep (tri_get tri0 i1)))
            i2 (near_interp_vertex keep (tri_get tri0 i2))
        else tri0
      let step1 : Option (List (Int × List Nat) × tri_t) :=
        if num_near = 1 then
          let cv := if n1 then 1 else if n2 then 2 else 0
          let i1 := (cv + 1) % 3
          let c1 := near_interp_vertex (tri_get tri0 cv) (tri_get tri0 i1)
          let c2 := near_interp_vertex (tri_get tri0 cv) (tri_get tri0 ((cv + 2) % 3))
          match rasterize_triangle fb fuel (tri_set tri0 cv c1) with
          | none => none
          | some ps => some (ps, tri_set (tri_set tri0 cv c2) i1 c1)
        else some ([], tri1)
      match step1 with
      | none => none
      | some (ps1, triA) =>
        let f0 := decide (triA.v0.w ≤ triA.v0.z)
        let f1 := decide (triA.v1.w ≤ triA.v1.z)
        let f2 := decide (triA.v2.w ≤ triA.v2.z)
        let num_far := (if f0 then 1 else 0) + (if f1 then 1 else 0) + (if f2 then 1 else 0)
        if num_far = 3 then some ps1
        else
          let triB :=
            if num_far = 2 then
              let uv := if !f1 then 1 else if !f2 then 2 else 0
              let i1 := (uv + 1) % 3
              let i2 := (uv + 2) % 3
              let keep := tri_get triA uv
              tri_set (tri_set triA i1 (far_interp_vertex keep (tri_get triA i1)))
                i2 (far_interp_vertex keep (tri_get triA i2))
            else triA
          let step2 : Option (List (Int × List Nat) × tri_t) :=
            if num_far = 1 then
              let cv := if f1 then 1 else if f2 then 2 else 0
              let i1 := (cv + 1) % 3
              let c1 := far_interp_vertex (tri_get triA cv) (tri_get triA i1)
              let c2 := far_interp_vertex (tri_get triA cv) (tri_get triA ((cv + 2) % 3))
              match rasterize_triangle fb fuel (tri_set triA cv c1) with
              | none => none
              | some ps => some (ps, tri_set (tri_set triA cv c2) i1 c1)
            else some ([], triB)
          match step2 with
          | none => none
          | some (ps2, triC) => some (ps1 ++ ps2 ++ setup_pushes fb triC)

/-- `framebuffer_draw` (lines 3497-3525): group the flat vertex stream
into consecutive triangles and rasterize each; collects all pushes. -/
def framebuffer_draw (fb : fbdims_t) (fuel : Nat) (tris : List tri_t) :
    Option (List (Int × List Nat)) :=
  tris.foldl
    (fun acc t =>
      match acc, rasterize_triangle fb fuel t with
      | some l, some l' => some (l ++ l')
      | _, _ => none)
    (some [])

/-! ## Per-tile command ring buffer (`tile_cmdbuf_t`, push and resolve)

The buffer is the fixed 128-dword array of one tile.  Cursors are indices
into it (`cmdbuf_start` = 0, `cmdbuf_end` = 128, past-the-end).  The state
additionally records `executed` — the dword lists of the commands the
resolve loop has dispatched, in order — and `ok`, the conjunction of every
`assert` the source would have evaluated. -/

structure tile_cmdbuf_t where
  buf : List Nat
  read : Nat
  write : Nat
  executed : List (List Nat)
  ok : Bool

/-- A fresh tile command buffer (`new_framebuffer`, lines 1894-1901). -/
def cmdbuf_init : tile_cmdbuf_t :=
  { buf := List.replicate 128 0, read := 0, write := 0, executed := [], ok := true }

/-- Dword size of a command, by leading tag (`sizeof(...)/sizeof(uint32_t)`);
0 for the wrap marker and unknown tags. -/
def cmdSize (tag : Nat) : Nat :=
  if tag = 1 then 20 else if 2 ≤ tag ∧ tag ≤ 5 then 16 else if tag = 6 then 2 else 0

/-- The `n` dwords of the command starting at index `p` (the interpreter
reads them one by one; positions are always in range in reachable states). -/
def extractCmd (buf : List Nat) (p n : Nat) : List Nat :=
  (List.range n).map (fun i => buf.getD (p + i) 0)

/-- Copy the dwords of `c` into the buffer starting at index `p`
(lines 2526-2529). -/
def writeDwords (buf : List Nat) (p : Nat) (c : List Nat) : List Nat :=
  match c with
  | [] => buf
  | d :: c' => writeDwords (buf.set p d) (p + 1) c'

/-- The interpreter loop of `framebuffer_resolve_tile` (lines 2392-2442):
walk from `pos` to `write`, dispatching each command (recorded in `acc`),
jumping to the start on a `resetbuf` marker, wrapping at the end of the
buffer (and stopping there when `write == end`).  Returns the final
cursor, the executed commands, and false if the fuel ran out or an
unknown tag was hit (the source would assert). -/
def drainLoop (buf : List Nat) (w : Nat) : Nat → Nat → List (List Nat) →
    Nat × List (List Nat) × Bool
  | 0, pos, acc => (pos, acc, false)
  | fuel + 1, pos, acc =>
    if pos = w then (pos, acc, true)
    else if buf.getD pos 0 = 0 then drainLoop buf w fuel 0 acc
    else if cmdSize (buf.getD pos 0) = 0 then (pos, acc, false)
    else if pos + cmdSize (buf.getD pos 0) = 128 then
      if w = 128 then (0, acc ++ [extractCmd buf pos (cmdSize (buf.getD pos 0))], true)
      else drainLoop buf w fuel 0 (acc ++ [extractCmd buf pos (cmdSize (buf.getD pos 0))])
    else drainLoop buf w fuel (pos + cmdSize (buf.getD pos 0))
      (acc ++ [extractCmd buf pos (cmdSize (buf.getD pos 0))])

/-- `framebuffer_resolve_tile` (lines 2385-2450) on the ring-buffer state:
run the interpreter loop, move the read cursor to where it stopped, and
record the trailing `assert(cmd != cmdbuf_end)`. -/
def framebuffer_resolve_tile (st : tile_cmdbuf_t) : tile_cmdbuf_t :=
  let r := drainLoop st.buf st.write 512 st.read st.executed
  let ok2 := st.ok && r.2.2 && decide (r.1 ≠ 128)
  { st with read := r.1, executed := r.2.1, ok := ok2 }

/-- `framebuffer_push_tilecmd` (lines 2452-2555): flush the tile when the
read cursor is ahead and too close, write a `resetbuf` marker and wrap
when the tail of the buffer is too small (resolving first if the read
cursor sits at the start), then copy the command and advance the write
cursor, wrapping (and resolving if needed) when it reaches the end.
Every `assert` of the source is accumulated into `ok`. -/
def push_flush (st : tile_cmdbuf_t) : tile_cmdbuf_t :=
  let st' := framebuffer_resolve_tile st
  { st' with ok := st'.ok && decide (st'.read = st'.write) }

def push_step1 (n : Nat) (st : tile_cmdbuf_t) : tile_cmdbuf_t :=
  if st.write < st.read ∧ st.read - st.write < n + 1 then push_flush st else st

def push_step2 (n : Nat) (st : tile_cmdbuf_t) : tile_cmdbuf_t :=
  if 128 - st.write < n then
    let st1 : tile_cmdbuf_t :=
      { st with ok := st.ok && decide (st.write ≠ 128), buf := st.buf.set st.write 0 }
    let st3 : tile_cmdbuf_t :=
      if st.read = 0 then
        let st' := framebuffer_resolve_tile st1
        { st' with read := 0, write := 0 }
      else { st1 with write := 0 }
    if 0 < st3.read ∧ st3.read < n + 1 then push_flush st3 else st3
  else st

def push_step3 (c : List Nat) (st : tile_cmdbuf_t) : tile_cmdbuf_t :=
  let n := c.length
  let okc := st.ok && decide (n ≤ 128 - st.write) &&
    decide (st.read ≤ st.write ∨ (st.write < st.read ∧ n + 1 ≤ st.read - st.write))
  let stw : tile_cmdbuf_t :=
    { st with ok := okc, buf := writeDwords st.buf st.write c, write := st.write + n }
  let stw : tile_cmdbuf_t := { stw with ok := stw.ok && decide (stw.write ≠ stw.read) }
  if stw.write = 128 then
    let st' := if stw.read = 0 then framebuffer_resolve_tile stw else stw
    { st' with write := 0 }
  else stw

def framebuffer_push_tilecmd (st0 : tile_cmdbuf_t) (c : List Nat) : tile_cmdbuf_t :=
  push_step3 c (push_step2 c.length (push_step1 c.length
    { st0 with ok := st0.ok && decide (st0.read ≠ 128) }))

/-- Push a list of commands in order, then resolve the tile: the
single-tile behavior of a draw/clear sequence followed by
`framebuffer_resolve`. -/
def runTile (cmds : List (List Nat)) : tile_cmdbuf_t :=
  framebuffer_resolve_tile (cmds.foldl framebuffer_push_tilecmd cmdbuf_init)

/-- A well-formed pushable command: nonempty, and its length is the size
its leading tag dictates (this also forces the tag to be a real command
tag, not `resetbuf` or junk:  `cmdSize` is 0 there). -/
def ValidCmd (c : List Nat) : Prop := 0 < c.length ∧ cmdSize (c.getD 0 0) = c.length

instance (c : List Nat) : Decidable (ValidCmd c) :=
  decidable_of_iff (0 < c.length ∧ cmdSize (c.getD 0 0) = c.length) Iff.rfl

/-! ## Parsing the pending region of a ring buffer

`parseSeg` reads the linear segment `[p, w)` of the buffer as a sequence
of commands; it is the static counterpart of the interpreter walk and is
used only to state the ring-buffer invariant. -/

/-- Parse `[p, w)` as consecutive commands (fuel-based). -/
def parseSeg (buf : List Nat) : Nat → Nat → Nat → Option (List (List Nat))
  | 0, _, _ => none
  | fuel + 1, p, w =>
    if p = w then some []
    else if w < p then none
    else if cmdSize (buf.getD p 0) = 0 then none
    else if w < p + cmdSize (buf.getD p 0) then none
    else (parseSeg buf fuel (p + cmdSize (buf.getD p 0)) w).map
      (fun l => extractCmd buf p (cmdSize (buf.getD p 0)) :: l)

/-- Canonical fuel for `parseSeg` (always enough for regions inside a
128-dword buffer). -/
def parseRegion (buf : List Nat) (p w : Nat) : Option (List (List Nat)) :=
  parseSeg buf 200 p w

/-- The well-formedness invariant of a tile ring buffer, relating a state
to the list `pending` of commands written but not yet consumed.  Either the
pending region is linear (`read ≤ write`), or the writer has wrapped: the
tail `[read, ..)` parses up to a `resetbuf` marker (or exactly to the end
of the 128-dword buffer) and the head `[0, write)` parses the rest. -/
def CmdbufWF (st : tile_cmdbuf_t) (pending : List (List Nat)) : Prop :=
  st.buf.length = 128 ∧ st.ok = true ∧
  ((st.read ≤ st.write ∧ st.write ≤ 127 ∧
      parseRegion st.buf st.read st.write = some pending) ∨
   (st.write < st.read ∧ st.read ≤ 127 ∧ ∃ P1 P2, pending = P1 ++ P2 ∧
      parseRegion st.buf 0 st.write = some P2 ∧
      ((∃ q, st.read ≤ q ∧ q ≤ 127 ∧ st.buf.getD q 0 = 0 ∧
          parseRegion st.buf st.read q = some P1) ∨
       parseRegion st.buf st.read 128 = some P1)))

/-- States of one tile's command buffer reachable from the fresh buffer by
pushes of well-formed commands and resolves. -/
inductive CmdbufReachable : tile_cmdbuf_t → Prop
  | init : CmdbufReachable cmdbuf_init
  | push {st : tile_cmdbuf_t} {c : List Nat} : CmdbufReachable st → ValidCmd c →
      CmdbufReachable (framebuffer_push_tilecmd st c)
  | resolve {st : tile_cmdbuf_t} : CmdbufReachable st →
      CmdbufReachable (framebuffer_resolve_tile st)

/-- The top/left condition as the spec words it: a top edge is horizontal
and goes right-to-left in winding, a left edge goes strictly downward
(window y grows downward, so downward means increasing y). -/
def claimed_top_or_left (vx vy v1x v1y : Int) : Bool :=
  (decide (vy = v1y) && decide (v1x < vx)) || decide (vy < v1y)

/-- Rounding the quotient `n / d` (`d ≠ 0`) half away from zero: the
rounding mode the spec ascribes to `s1516_div`. -/
def roundHalfAway (n d : Int) : Int :=
  if 0 ≤ n * d then (((2 * n.natAbs + d.natAbs) / (2 * d.natAbs) : Nat) : Int)
  else -(((2 * n.natAbs + d.natAbs) / (2 * d.natAbs) : Nat) : Int)

/-- `s1516_div` as the spec describes it: the half-away-from-zero quotient
of `a << 16` by `b`, saturated to the signed 32-bit range. -/
def s1516_div_claimed (a b : Int) : Int := s1516_sat (roundHalfAway (a * 2 ^ 16) b)

/-- `framebuffer_clear` (rasterizer.cpp lines 2664-2674) at the plane
level: push one `cleartile` command to every tile, in tile order. -/
def framebuffer_clear (wit num_tiles : Nat) (color : Nat) (st : RasterSt) : RasterSt :=
  (List.range num_tiles).foldl
    (fun s t => apply_tilecmd wit t s (tilecmd_cleartile_dwords color)) st

/-- A 128x128 framebuffer: exactly one tile. -/
def fb128 : fbdims_t := { width_in_pixels := 128, height_in_pixels := 128 }

/-- Freshly cleared planes: black color, far depth. -/
def planes0 : Planes := fun _ => (0, 0xFFFFFFFF)

/-- A triangle whose three vertices all lie at or beyond the far plane
(`z ≥ w`), yet whose near-clip path emits draw commands. -/
def c6tri : tri_t :=
  { v0 := { x := -67108864, y := 0, z := -536887309, w := -536887309 }
    v1 := { x := 67108864, y := 0, z := 536870912, w := 536870912 }
    v2 := { x := 0, y := 67108864, z := 536870912, w := 536870912 } }

/-- A small on-screen triangle whose barycentric `u` reaches `0x807F` at a
covered pixel, firing the `assert(u < 0x8000)` in the pixel loop. -/
def c8tri : tri_t :=
  { v0 := { x := -44543, y := 44548, z := 0, w := 65536 }
    v1 := { x := -43519, y := 44544, z := 0, w := 65536 }
    v2 := { x := -44539, y := 44032, z := 0, w := 65536 } }

/-- A triangle whose near-clip split recurses into a far-clip split:
clipping recursion of depth two. -/
def c9tri : tri_t :=
  { v0 := { x := 0, y := 0, z := 0, w := -327680 }
    v1 := { x := -65536, y := 0, z := 0, w := 65536 }
    v2 := { x := 65536, y := 65536, z := 0, w := 65536 } }

theorem cmdSize_ge_two {t : Nat} (h : cmdSize t ≠ 0) : 2 ≤ cmdSize t := by
  unfold cmdSize at h ⊢
  split_ifs at h ⊢ <;> omega

theorem parse_len {buf : List Nat} {f p w : Nat} {L : List (List Nat)}
    (h : parseSeg buf f p w = some L) : p + 2 * L.length ≤ w := by
  induction f generalizing p L with
  | zero => simp [parseSeg] at h
  | succ f ih =>
    rw [parseSeg] at h
    split_ifs at h with hpw hlt hn hfit
    · have : L = [] := by simpa using h.symm
      subst this
      simp
      omega
    · cases hinner : parseSeg buf f (p + cmdSize (buf.getD p 0)) w with
      | none => rw [hinner] at h; simp at h
      | some L2 =>
        rw [hinner] at h
        simp only [Option.map_some', Option.some.injEq] at h
        subst h
        have hrec := ih hinner
        have h2 := cmdSize_ge_two hn
        simp only [List.length_cons]
        omega

theorem parse_refuel {buf : List Nat} {f p w : Nat} {L : List (List Nat)}
    (h : parseSeg buf f p w = some L) {f' : Nat} (hf : L.length < f') :
    parseSeg buf f' p w = some L := by
  induction f generalizing p L f' with
  | zero => simp [parseSeg] at h
  | succ f ih =>
    rw [parseSeg] at h
    obtain ⟨f'', rfl⟩ : ∃ k, f' = k + 1 := ⟨f' - 1, by omega⟩
    rw [parseSeg]
    split_ifs at h with hpw hlt hn hfit
    · simp [hpw]
      simpa using h.symm
    · cases hinner : parseSeg buf f (p + cmdSize (buf.getD p 0)) w with
      | none => rw [hinner] at h; simp at h
      | some L2 =>
        rw [hinner] at h
        simp only [Option.map_some', Option.some.injEq] at h
        subst h
        simp only [if_neg hpw, if_neg hlt, if_neg hn, if_neg hfit]
        have : parseSeg buf f'' (p + cmdSize (buf.getD p 0)) w = some L2 := by
          apply ih hinner
          simp only [List.length_cons] at hf
          omega
        rw [this]
        simp

theorem getD_set_ne (l : List Nat) {i j : Nat} (a : Nat) (h : i ≠ j) :
    (l.set i a).getD j 0 = l.getD j 0 := by
  simp [List.getD_eq_getElem?_getD, List.getElem?_set_ne h]

theorem getD_set_self (l : List Nat) {i : Nat} (a : Nat) (h : i < l.length) :
    (l.set i a).getD i 0 = a := by
  simp [List.getD_eq_getElem?_getD, List.getElem?_set_self, h]

theorem writeDwords_length (c : List Nat) (buf : List Nat) (p : Nat) :
    (writeDwords buf p c).length = buf.length := by
  induction c generalizing buf p with
  | nil => rfl
  | cons d c ih => simp [writeDwords, ih]

theorem writeDwords_getD_lt (c : List Nat) (buf : List Nat) {p i : Nat} (h : i < p) :
    (writeDwords buf p c).getD i 0 = buf.getD i 0 := by
  induction c generalizing buf p with
  | nil => rfl
  | cons d c ih =>
    rw [writeDwords, ih (buf.set p d) (by omega), getD_set_ne buf d (by omega)]

theorem writeDwords_getD_ge (c : List Nat) (buf : List Nat) {p i : Nat}
    (h : p + c.length ≤ i) : (writeDwords buf p c).getD i 0 = buf.getD i 0 := by
  induction c generalizing buf p with
  | nil => rfl
  | cons d c ih =>
    simp only [List.length_cons] at h
    rw [writeDwords, ih (buf.set p d) (by omega), getD_set_ne buf d (by omega)]

theorem writeDwords_getD_in (c : List Nat) (buf : List Nat) {p i : Nat}
    (hbuf : p + c.length ≤ buf.length) (h1 : p ≤ i) (h2 : i < p + c.length) :
    (writeDwords buf p c).getD i 0 = c.getD (i - p) 0 := by
  induction c generalizing buf p with
  | nil => simp at h2; omega
  | cons d c ih =>
    simp only [List.length_cons] at hbuf h2
    rw [writeDwords]
    by_cases hip : i = p
    · subst hip
      rw [writeDwords_getD_lt c _ (by omega), getD_set_self buf d (by omega)]
      simp
    · rw [ih (buf.set p d) (by simp [List.length_set]; omega) (by omega) (by omega)]
      have hk : i - p = (i - (p + 1)) + 1 := by omega
      rw [hk, List.getD_cons_succ]

theorem extractCmd_agree {buf buf2 : List Nat} {p n : Nat}
    (hag : ∀ i, p ≤ i → i < p + n → buf.getD i 0 = buf2.getD i 0) :
    extractCmd buf p n = extractCmd buf2 p n := by
  unfold extractCmd
  apply List.map_congr_left
  intro i hi
  simp only [List.mem_range] at hi
  exact hag (p + i) (by omega) (by omega)

theorem parseSeg_agree {buf buf2 : List Nat} {f w : Nat} :
    ∀ p, (∀ i, p ≤ i → i < w → buf.getD i 0 = buf2.getD i 0) →
      parseSeg buf f p w = parseSeg buf2 f p w := by
  induction f with
  | zero => intro p _; rfl
  | succ f ih =>
    intro p hp
    by_cases hpw : p = w
    · rw [parseSeg, parseSeg]; simp [hpw]
    · by_cases hlt : w < p
      · rw [parseSeg, parseSeg]; simp [hpw, hlt]
      · have htag : buf.getD p 0 = buf2.getD p 0 := hp p (le_refl p) (by omega)
        rw [parseSeg, parseSeg, ← htag]
        split_ifs with h1 h2 h3 h4 <;> try rfl
        rw [ih (p + cmdSize (buf.getD p 0)) (fun i hh1 hh2 => hp i (by omega) hh2)]
        rw [extractCmd_agree (fun i hh1 hh2 => hp i hh1 (by omega))]

theorem parseRegion_agree {buf buf2 : List Nat} {p w : Nat}
    (hp : ∀ i, p ≤ i → i < w → buf.getD i 0 = buf2.getD i 0) :
    parseRegion buf p w = parseRegion buf2 p w :=
  parseSeg_agree p hp

theorem parseRegion_nil (buf : List Nat) (w : Nat) : parseRegion buf w w = some [] := by
  rw [parseRegion, parseSeg]
  simp

theorem parseRegion_cons {buf : List Nat} {p w : Nat} (hpw : p < w) (hw : w ≤ 128)
    (hn : cmdSize (buf.getD p 0) ≠ 0) (hfit : p + cmdSize (buf.getD p 0) ≤ w)
    {L : List (List Nat)} (h : parseRegion buf (p + cmdSize (buf.getD p 0)) w = some L) :
    parseRegion buf p w = some (extractCmd buf p (cmdSize (buf.getD p 0)) :: L) := by
  have hlen := parse_len h
  rw [parseRegion, show (200 : Nat) = 199 + 1 from rfl, parseSeg]
  rw [if_neg (by omega : ¬ p = w), if_neg (by omega : ¬ w < p), if_neg (by simpa using hn),
    if_neg (by omega : ¬ w < p + cmdSize (buf.getD p 0))]
  rw [parse_refuel h (by omega : L.length < 199)]
  rfl

theorem parseRegion_inv {buf : List Nat} {p w : Nat} (hw : w ≤ 128)
    {L : List (List Nat)} (h : parseRegion buf p w = some L) :
    (p = w ∧ L = []) ∨
    (p < w ∧ cmdSize (buf.getD p 0) ≠ 0 ∧ p + cmdSize (buf.getD p 0) ≤ w ∧
     ∃ L', L = extractCmd buf p (cmdSize (buf.getD p 0)) :: L' ∧
       parseRegion buf (p + cmdSize (buf.getD p 0)) w = some L') := by
  rw [parseRegion, show (200 : Nat) = 199 + 1 from rfl, parseSeg] at h
  split_ifs at h with hpw hlt hn hfit
  · left
    exact ⟨hpw, by simpa using h.symm⟩
  · right
    cases hinner : parseSeg buf 199 (p + cmdSize (buf.getD p 0)) w with
    | none => rw [hinner] at h; simp at h
    | some L2 =>
      rw [hinner] at h
      simp only [Option.map_some', Option.some.injEq] at h
      subst h
      have hlen := parse_len hinner
      refine ⟨by omega, hn, by omega, L2, rfl, ?_⟩
      exact parse_refuel hinner (by omega)

theorem parse_some_nil {buf : List Nat} {p w : Nat} (hw : w ≤ 128)
    (h : parseRegion buf p w = some []) : p = w := by
  rcases parseRegion_inv hw h with ⟨h1, _⟩ | ⟨_, _, _, L', hL', _⟩
  · exact h1
  · simp at hL'

theorem parseRegion_append {buf : List Nat} {p w w' : Nat} {P Q : List (List Nat)}
    (h1 : parseRegion buf p w = some P) (h2 : parseRegion buf w w' = some Q)
    (hww : w ≤ w') (hw : w' ≤ 128) :
    parseRegion buf p w' = some (P ++ Q) := by
  induction P generalizing p with
  | nil =>
    have := parse_some_nil (by omega) h1
    subst this
    simpa using h2
  | cons c P ih =>
    rcases parseRegion_inv (by omega) h1 with ⟨_, hcontra⟩ | ⟨hlt, hn, hfit, L', hL', hrest⟩
    · simp at hcontra
    · obtain ⟨rfl, rfl⟩ : c = extractCmd buf p (cmdSize (buf.getD p 0)) ∧ P = L' := by
        cases hL'
        exact ⟨rfl, rfl⟩
      exact parseRegion_cons (by omega) hw hn (by omega) (ih hrest)

theorem parseRegion_single {buf : List Nat} {p : Nat} {c : List Nat}
    (hv : ValidCmd c) (hbuf : buf.length = 128) (hfit : p + c.length ≤ 128) :
    parseRegion (writeDwords buf p c) p (p + c.length) = some [c] := by
  obtain ⟨hpos, hsize⟩ := hv
  have htag : (writeDwords buf p c).getD p 0 = c.getD 0 0 := by
    have := writeDwords_getD_in c buf (by omega) (le_refl p) (by omega)
    simpa using this
  have hext : extractCmd (writeDwords buf p c) p c.length = c := by
    unfold extractCmd
    apply List.ext_getElem
    · simp
    · intro i hi1 hi2
      simp only [List.getElem_map, List.getElem_range]
      simp only [List.length_map, List.length_range] at hi1
      rw [writeDwords_getD_in c buf (by omega) (by omega) (by omega)]
      simp only [Nat.add_sub_cancel_left]
      exact List.getD_eq_getElem c 0 hi2
  have hn' : cmdSize ((writeDwords buf p c).getD p 0) ≠ 0 := by
    rw [htag, hsize]; omega
  have hfit' : p + cmdSize ((writeDwords buf p c).getD p 0) ≤ p + c.length := by
    rw [htag, hsize]
  have hinner : parseRegion (writeDwords buf p c)
      (p + cmdSize ((writeDwords buf p c).getD p 0)) (p + c.length) = some [] := by
    rw [htag, hsize]; exact parseRegion_nil _ _
  have hfin := parseRegion_cons (by omega) (by omega) hn' hfit' hinner
  rw [htag, hsize, hext] at hfin
  exact hfin

theorem tag_ne_zero {t : Nat} (h : cmdSize t ≠ 0) : t ≠ 0 := by
  intro ht
  subst ht
  simp [cmdSize] at h

theorem drain_linear {buf : List Nat} {w : Nat} {L : List (List Nat)} :
    ∀ {p fuel : Nat} {acc : List (List Nat)}, parseRegion buf p w = some L →
      w ≤ 127 → L.length + 1 ≤ fuel →
      drainLoop buf w fuel p acc = (w, acc ++ L, true) := by
  induction L with
  | nil =>
    intro p fuel acc h hw hf
    have hp := parse_some_nil (by omega) h
    subst hp
    obtain ⟨f, rfl⟩ : ∃ k, fuel = k + 1 := ⟨fuel - 1, by omega⟩
    rw [drainLoop, if_pos rfl]
    simp
  | cons c L ih =>
    intro p fuel acc h hw hf
    rcases parseRegion_inv (by omega) h with ⟨_, hc⟩ | ⟨hlt, hn, hfit, L', hL', hrest⟩
    · simp at hc
    · obtain ⟨rfl, rfl⟩ : c = extractCmd buf p (cmdSize (buf.getD p 0)) ∧ L = L' := by
        cases hL'; exact ⟨rfl, rfl⟩
      obtain ⟨f, rfl⟩ : ∃ k, fuel = k + 1 := ⟨fuel - 1, by omega⟩
      rw [drainLoop, if_neg (by omega : ¬ p = w), if_neg (tag_ne_zero hn),
        if_neg (by simpa using hn), if_neg (by omega : ¬ p + cmdSize (buf.getD p 0) = 128)]
      rw [ih hrest hw (by simp at hf ⊢; omega)]
      simp

theorem drain_to_end {buf : List Nat} {L : List (List Nat)} :
    ∀ {p fuel : Nat} {acc : List (List Nat)}, parseRegion buf p 128 = some L →
      p < 128 → L.length + 1 ≤ fuel →
      drainLoop buf 128 fuel p acc = (0, acc ++ L, true) := by
  induction L with
  | nil =>
    intro p fuel acc h hp _
    have := parse_some_nil (by omega) h
    omega
  | cons c L ih =>
    intro p fuel acc h hp hf
    rcases parseRegion_inv (by omega) h with ⟨_, hc⟩ | ⟨hlt, hn, hfit, L', hL', hrest⟩
    · simp at hc
    · obtain ⟨rfl, rfl⟩ : c = extractCmd buf p (cmdSize (buf.getD p 0)) ∧ L = L' := by
        cases hL'; exact ⟨rfl, rfl⟩
      obtain ⟨f, rfl⟩ : ∃ k, fuel = k + 1 := ⟨fuel - 1, by omega⟩
      rw [drainLoop, if_neg (by omega : ¬ p = 128), if_neg (tag_ne_zero hn),
        if_neg (by simpa using hn)]
      by_cases hend : p + cmdSize (buf.getD p 0) = 128
      · rw [if_pos hend, if_pos rfl]
        have : L = [] := by
          rw [hend] at hrest
          rw [parseRegion_nil] at hrest
          simpa using hrest.symm
        subst this
        simp
      · rw [if_neg hend]
        rw [ih hrest (by omega) (by simp at hf ⊢; omega)]
        simp

theorem drain_wrap_marker {buf : List Nat} {w q : Nat} {P2 : List (List Nat)}
    (hq : q ≤ 127) (hmark : buf.getD q 0 = 0) (hw : w ≤ 127)
    (h2 : parseRegion buf 0 w = some P2) {P1 : List (List Nat)} :
    ∀ {p fuel : Nat} {acc : List (List Nat)}, parseRegion buf p q = some P1 →
      w < p → P1.length + P2.length + 2 ≤ fuel →
      drainLoop buf w fuel p acc = (w, acc ++ P1 ++ P2, true) := by
  induction P1 with
  | nil =>
    intro p fuel acc h hwp hf
    have := parse_some_nil (by omega) h
    subst this
    obtain ⟨f, rfl⟩ : ∃ k, fuel = k + 1 := ⟨fuel - 1, by omega⟩
    rw [drainLoop, if_neg (by omega : ¬ p = w), if_pos hmark]
    rw [drain_linear h2 hw (by simp at hf ⊢; omega)]
    simp
  | cons c P1 ih =>
    intro p fuel acc h hwp hf
    rcases parseRegion_inv (by omega) h with ⟨_, hc⟩ | ⟨hlt, hn, hfit, L', hL', hrest⟩
    · simp at hc
    · obtain ⟨rfl, rfl⟩ : c = extractCmd buf p (cmdSize (buf.getD p 0)) ∧ P1 = L' := by
        cases hL'; exact ⟨rfl, rfl⟩
      obtain ⟨f, rfl⟩ : ∃ k, fuel = k + 1 := ⟨fuel - 1, by omega⟩
      rw [drainLoop, if_neg (by omega : ¬ p = w), if_neg (tag_ne_zero hn),
        if_neg (by simpa using hn), if_neg (by omega : ¬ p + cmdSize (buf.getD p 0) = 128)]
      rw [ih hrest (by omega) (by simp at hf ⊢; omega)]
      simp

theorem drain_wrap_exact {buf : List Nat} {w : Nat} {P2 : List (List Nat)}
    (hw : w ≤ 127) (h2 : parseRegion buf 0 w = some P2) {P1 : List (List Nat)} :
    ∀ {p fuel : Nat} {acc : List (List Nat)}, parseRegion buf p 128 = some P1 →
      w < p → p ≤ 127 → P1.length + P2.length + 2 ≤ fuel →
      drainLoop buf w fuel p acc = (w, acc ++ P1 ++ P2, true) := by
  induction P1 with
  | nil =>
    intro p fuel acc h hwp hp hf
    have := parse_some_nil (by omega) h
    omega
  | cons c P1 ih =>
    intro p fuel acc h hwp hp hf
    rcases parseRegion_inv (by omega) h with ⟨_, hc⟩ | ⟨hlt, hn, hfit, L', hL', hrest⟩
    · simp at hc
    · obtain ⟨rfl, rfl⟩ : c = extractCmd buf p (cmdSize (buf.getD p 0)) ∧ P1 = L' := by
        cases hL'; exact ⟨rfl, rfl⟩
      obtain ⟨f, rfl⟩ : ∃ k, fuel = k + 1 := ⟨fuel - 1, by omega⟩
      rw [drainLoop, if_neg (by omega : ¬ p = w), if_neg (tag_ne_zero hn),
        if_neg (by simpa using hn)]
      by_cases hend : p + cmdSize (buf.getD p 0) = 128
      · rw [if_pos hend, if_neg (by omega : ¬ w = 128)]
        have : P1 = [] := by
          rw [hend] at hrest
          rw [parseRegion_nil] at hrest
          simpa using hrest.symm
        subst this
        rw [drain_linear h2 hw (by simp at hf ⊢; omega)]
      · rw [if_neg hend]
        rw [ih hrest (by omega) (by omega) (by simp at hf ⊢; omega)]
        simp

theorem CmdbufWF_bounds {st : tile_cmdbuf_t} {pending : List (List Nat)}
    (h : CmdbufWF st pending) :
    st.read ≤ 127 ∧ st.write ≤ 127 ∧ pending.length ≤ 127 := by
  obtain ⟨hlen, hok, hshape⟩ := h
  rcases hshape with ⟨hrw, hw, hparse⟩ | ⟨hwr, hr, P1, P2, hpend, h2, h1⟩
  · have := parse_len hparse
    exact ⟨by omega, hw, by omega⟩
  · have hl2 := parse_len h2
    refine ⟨hr, by omega, ?_⟩
    subst hpend
    rcases h1 with ⟨q, hrq, hq, _, h1p⟩ | h1p
    · have hl1 := parse_len h1p
      simp only [List.length_append]
      omega
    · have hl1 := parse_len h1p
      simp only [List.length_append]
      omega

theorem resolve_eq {st : tile_cmdbuf_t} {pending : List (List Nat)}
    (h : CmdbufWF st pending) :
    framebuffer_resolve_tile st =
      { st with read := st.write, executed := st.executed ++ pending } := by
  obtain ⟨hlen, hok, hshape⟩ := h
  have hd : st.write ≠ 128 := by
    rcases hshape with ⟨_, hw, _⟩ | ⟨hwr, hr, _⟩
    · omega
    · omega
  rcases hshape with ⟨hrw, hw, hparse⟩ | ⟨hwr, hr, P1, P2, hpend, h2, h1⟩
  · have hl := parse_len hparse
    simp only [framebuffer_resolve_tile]
    rw [drain_linear hparse hw (by omega)]
    simp [hok, decide_eq_true hd]
  · subst hpend
    have hl2 := parse_len h2
    simp only [framebuffer_resolve_tile]
    rcases h1 with ⟨q, hrq, hq, hmark, h1p⟩ | h1p
    · have hl1 := parse_len h1p
      rw [drain_wrap_marker hq hmark (by omega) h2 h1p hwr (by omega)]
      simp [hok, decide_eq_true hd, List.append_assoc]
    · have hl1 := parse_len h1p
      rw [drain_wrap_exact (by omega) h2 h1p hwr hr (by omega)]
      simp [hok, decide_eq_true hd, List.append_assoc]

theorem resolve_WF {st : tile_cmdbuf_t} {pending : List (List Nat)}
    (h : CmdbufWF st pending) : CmdbufWF (framebuffer_resolve_tile st) [] := by
  have hb := CmdbufWF_bounds h
  rw [resolve_eq h]
  obtain ⟨hlen, hok, _⟩ := h
  exact ⟨hlen, hok, Or.inl ⟨le_refl _, hb.2.1, parseRegion_nil _ _⟩⟩

theorem push_flush_eq {st : tile_cmdbuf_t} {pending : List (List Nat)}
    (h : CmdbufWF st pending) :
    push_flush st = { st with read := st.write, executed := st.executed ++ pending } := by
  simp only [push_flush]
  rw [resolve_eq h]
  obtain ⟨_, hok, _⟩ := h
  simp [hok]

theorem push_flush_WF {st : tile_cmdbuf_t} {pending : List (List Nat)}
    (h : CmdbufWF st pending) : CmdbufWF (push_flush st) [] := by
  have hb := CmdbufWF_bounds h
  rw [push_flush_eq h]
  obtain ⟨hlen, hok, _⟩ := h
  exact ⟨hlen, hok, Or.inl ⟨le_refl _, hb.2.1, parseRegion_nil _ _⟩⟩

theorem step1_WF (n : Nat) {st : tile_cmdbuf_t} {pending : List (List Nat)}
    (h : CmdbufWF st pending) :
    ∃ pending2, CmdbufWF (push_step1 n st) pending2 ∧
      (push_step1 n st).executed ++ pending2 = st.executed ++ pending ∧
      ((push_step1 n st).read ≤ (push_step1 n st).write ∨
        n + 1 ≤ (push_step1 n st).read - (push_step1 n st).write) := by
  unfold push_step1
  by_cases hg : st.write < st.read ∧ st.read - st.write < n + 1
  · rw [if_pos hg]
    refine ⟨[], push_flush_WF h, ?_, ?_⟩
    · rw [push_flush_eq h]
      simp
    · rw [push_flush_eq h]
      simp
  · rw [if_neg hg]
    exact ⟨pending, h, rfl, by omega⟩

theorem step2_WF (n : Nat) {st : tile_cmdbuf_t} {pending : List (List Nat)}
    (h : CmdbufWF st pending) (hn2 : 2 ≤ n) (hn63 : n ≤ 63)
    (hg : st.read ≤ st.write ∨ n + 1 ≤ st.read - st.write) :
    ∃ pending2, CmdbufWF (push_step2 n st) pending2 ∧
      (push_step2 n st).executed ++ pending2 = st.executed ++ pending ∧
      n ≤ 128 - (push_step2 n st).write ∧
      ((push_step2 n st).read ≤ (push_step2 n st).write ∨
        n + 1 ≤ (push_step2 n st).read - (push_step2 n st).write) := by
  simp only [push_step2]
  by_cases houter : 128 - st.write < n
  · obtain ⟨hlen, hok, hshape⟩ := h
    have hlin : st.read ≤ st.write ∧ st.write ≤ 127 ∧
        parseRegion st.buf st.read st.write = some pending := by
      rcases hshape with hl | ⟨hwr, hr, _⟩
      · exact hl
      · exfalso
        omega
    obtain ⟨hrw, hw, hparse⟩ := hlin
    have hlen1 : (st.buf.set st.write 0).length = 128 := by
      simp [List.length_set, hlen]
    have hmark : (st.buf.set st.write 0).getD st.write 0 = 0 :=
      getD_set_self st.buf 0 (by omega)
    have hparse1 : parseRegion (st.buf.set st.write 0) st.read st.write = some pending := by
      rw [parseRegion_agree (fun i h1 h2 => getD_set_ne st.buf 0 (by omega))]
      exact hparse
    have hok1 : (st.ok && decide (st.write ≠ 128)) = true := by
      simp [hok]
      omega
    have hWF1 : CmdbufWF { st with ok := st.ok && decide (st.write ≠ 128), buf := st.buf.set st.write 0 } pending :=
      ⟨hlen1, hok1, Or.inl ⟨hrw, hw, hparse1⟩⟩
    rw [if_pos houter]
    by_cases hr0 : st.read = 0
    · rw [if_pos hr0, resolve_eq hWF1]
      split_ifs with hg2
      · exfalso
        have h0 : (0 : Nat) < 0 := hg2.1
        omega
      · refine ⟨[], ⟨hlen1, hok1, Or.inl ⟨le_refl 0, Nat.zero_le 127,
          parseRegion_nil (st.buf.set st.write 0) 0⟩⟩, by simp, ?_, Or.inl (le_refl 0)⟩
        show n ≤ 128 - 0
        omega
    · rw [if_neg hr0]
      have hWF3 : CmdbufWF { { st with ok := st.ok && decide (st.write ≠ 128), buf := st.buf.set st.write 0 } with write := 0 } pending :=
        ⟨hlen1, hok1, Or.inr ⟨(show 0 < st.read by omega), (show st.read ≤ 127 by omega), pending, [],
          (List.append_nil pending).symm, parseRegion_nil (st.buf.set st.write 0) 0,
          Or.inl ⟨st.write, hrw, by omega, hmark, hparse1⟩⟩⟩
      split_ifs with hg2
      · rw [push_flush_eq hWF3]
        refine ⟨[], ⟨hlen1, hok1, Or.inl ⟨le_refl 0, Nat.zero_le 127,
          parseRegion_nil (st.buf.set st.write 0) 0⟩⟩, by simp, ?_, Or.inl (le_refl 0)⟩
        show n ≤ 128 - 0
        omega
      · have hg2' : ¬(0 < st.read ∧ st.read < n + 1) := hg2
        refine ⟨pending, hWF3, rfl, ?_, Or.inr ?_⟩
        · show n ≤ 128 - 0
          omega
        · show n + 1 ≤ st.read - 0
          omega
  · rw [if_neg houter]
    exact ⟨pending, h, rfl, by omega, hg⟩

theorem validCmd_len {c : List Nat} (hc : ValidCmd c) : 2 ≤ c.length ∧ c.length ≤ 20 := by
  obtain ⟨hpos, hsize⟩ := hc
  unfold cmdSize at hsize
  split_ifs at hsize <;> omega


theorem resolve_eq_128 (buf : List Nat) (r w : Nat) (e : List (List Nat)) (okb : Bool)
    {L : List (List Nat)} (hok : okb = true) (hw : w = 128) (hr : r < 128)
    (hparse : parseRegion buf r 128 = some L) (hf : L.length + 1 ≤ 512) :
    framebuffer_resolve_tile (tile_cmdbuf_t.mk buf r w e okb) =
      tile_cmdbuf_t.mk buf 0 w (e ++ L) okb := by
  subst hw
  simp only [framebuffer_resolve_tile]
  rw [drain_to_end hparse hr hf]
  simp [hok]

theorem step3_WF {st : tile_cmdbuf_t} {pending : List (List Nat)} {c : List Nat}
    (h : CmdbufWF st pending) (hc : ValidCmd c)
    (hg1 : c.length ≤ 128 - st.write)
    (hg2 : st.read ≤ st.write ∨ c.length + 1 ≤ st.read - st.write) :
    ∃ pending2, CmdbufWF (push_step3 c st) pending2 ∧
      (push_step3 c st).executed ++ pending2 = st.executed ++ (pending ++ [c]) := by
  have hcl := validCmd_len hc
  obtain ⟨buf, r, w, e, okb⟩ := st
  have hg1' : c.length ≤ 128 - w := hg1
  have hg2' : r ≤ w ∨ c.length + 1 ≤ r - w := hg2
  clear hg1 hg2
  have hlen' : buf.length = 128 := h.1
  have hok' : okb = true := h.2.1
  have hlenW : (writeDwords buf w c).length = 128 := by
    rw [writeDwords_length]
    exact hlen'
  have hsingle : parseRegion (writeDwords buf w c) w (w + c.length) = some [c] :=
    parseRegion_single hc hlen' (by omega)
  have hokw : (okb && decide (c.length ≤ 128 - w) &&
      decide (r ≤ w ∨ w < r ∧ c.length + 1 ≤ r - w) && decide (w + c.length ≠ r)) = true := by
    simp only [hok', Bool.true_and, Bool.and_eq_true, decide_eq_true_eq]
    omega
  rcases h.2.2 with ⟨hrw, hw, hparse⟩ | ⟨hwr, hr127, P1, P2, hpend, h2, h1⟩
  · have hrw' : r ≤ w := hrw
    have hw' : w ≤ 127 := hw
    have hparse' : parseRegion buf r w = some pending := hparse
    clear hrw hw hparse
    have hparseW : parseRegion (writeDwords buf w c) r w = some pending := by
      rw [parseRegion_agree (fun i hi1 hi2 => writeDwords_getD_lt c buf (by omega))]
      exact hparse'
    have happ : parseRegion (writeDwords buf w c) r (w + c.length) = some (pending ++ [c]) :=
      parseRegion_append hparseW hsingle (by omega) (by omega)
    have hal := parse_len happ
    simp only [push_step3]
    split_ifs with hend hr0
    · have hend' : w + c.length = 128 := hend
      rw [hend'] at happ
      rw [resolve_eq_128 (writeDwords buf w c) r (w + c.length) e _ hokw hend'
        (by omega) happ (by omega)]
      refine ⟨[], ⟨hlenW, hokw, Or.inl ⟨le_refl 0, Nat.zero_le 127,
        parseRegion_nil (writeDwords buf w c) 0⟩⟩, by simp⟩
    · have hend' : w + c.length = 128 := hend
      have hr0' : ¬ r = 0 := hr0
      rw [hend'] at happ
      refine ⟨pending ++ [c], ⟨hlenW, hokw, Or.inr ⟨show (0 : Nat) < r by omega,
        show r ≤ 127 by omega, pending ++ [c], [], (List.append_nil _).symm,
        parseRegion_nil (writeDwords buf w c) 0, Or.inr happ⟩⟩, by simp⟩
    · have hend' : ¬ w + c.length = 128 := hend
      refine ⟨pending ++ [c], ⟨hlenW, hokw, Or.inl ⟨show r ≤ w + c.length by omega,
        show w + c.length ≤ 127 by omega, happ⟩⟩, by simp⟩
  · have hwr' : w < r := hwr
    have hr127' : r ≤ 127 := hr127
    have h2' : parseRegion buf 0 w = some P2 := h2
    clear hwr hr127 h2
    rcases h1 with ⟨q, hq1, hq2, hq3, hq4⟩ | h1p
    · have hq1' : r ≤ q := hq1
      have hq2' : q ≤ 127 := hq2
      have hq3' : buf.getD q 0 = 0 := hq3
      have hq4' : parseRegion buf r q = some P1 := hq4
      clear hq1 hq2 hq3 hq4
      have hwn : w + c.length < r := by omega
      have h2W : parseRegion (writeDwords buf w c) 0 w = some P2 := by
        rw [parseRegion_agree (fun i hi1 hi2 => writeDwords_getD_lt c buf (by omega))]
        exact h2'
      have happ2 : parseRegion (writeDwords buf w c) 0 (w + c.length) = some (P2 ++ [c]) :=
        parseRegion_append h2W hsingle (by omega) (by omega)
      have hmarkW : (writeDwords buf w c).getD q 0 = 0 := by
        rw [writeDwords_getD_ge c buf (by omega)]
        exact hq3'
      have h1W : parseRegion (writeDwords buf w c) r q = some P1 := by
        rw [parseRegion_agree (fun i hi1 hi2 => writeDwords_getD_ge c buf (by omega))]
        exact hq4'
      simp only [push_step3]
      split_ifs with hend hr0
      · exfalso
        have hend' : w + c.length = 128 := hend
        omega
      · exfalso
        have hend' : w + c.length = 128 := hend
        omega
      · refine ⟨P1 ++ (P2 ++ [c]), ⟨hlenW, hokw, Or.inr ⟨show w + c.length < r from hwn,
          show r ≤ 127 from hr127', P1, P2 ++ [c], rfl, happ2,
          Or.inl ⟨q, hq1', hq2', hmarkW, h1W⟩⟩⟩, ?_⟩
        rw [hpend]
        simp
    · have h1p' : parseRegion buf r 128 = some P1 := h1p
      clear h1p
      have hwn : w + c.length < r := by omega
      have h2W : parseRegion (writeDwords buf w c) 0 w = some P2 := by
        rw [parseRegion_agree (fun i hi1 hi2 => writeDwords_getD_lt c buf (by omega))]
        exact h2'
      have happ2 : parseRegion (writeDwords buf w c) 0 (w + c.length) = some (P2 ++ [c]) :=
        parseRegion_append h2W hsingle (by omega) (by omega)
      have h1W : parseRegion (writeDwords buf w c) r 128 = some P1 := by
        rw [parseRegion_agree (fun i hi1 hi2 => writeDwords_getD_ge c buf (by omega))]
        exact h1p'
      simp only [push_step3]
      split_ifs with hend hr0
      · exfalso
        have hend' : w + c.length = 128 := hend
        omega
      · exfalso
        have hend' : w + c.length = 128 := hend
        omega
      · refine ⟨P1 ++ (P2 ++ [c]), ⟨hlenW, hokw, Or.inr ⟨show w + c.length < r from hwn,
          show r ≤ 127 from hr127', P1, P2 ++ [c], rfl, happ2, Or.inr h1W⟩⟩, ?_⟩
        rw [hpend]
        simp

theorem push_WF {st : tile_cmdbuf_t} {pending : List (List Nat)} {c : List Nat}
    (h : CmdbufWF st pending) (hc : ValidCmd c) :
    ∃ pending2, CmdbufWF (framebuffer_push_tilecmd st c) pending2 ∧
      (framebuffer_push_tilecmd st c).executed ++ pending2 =
        st.executed ++ (pending ++ [c]) := by
  have hcl := validCmd_len hc
  have hb := CmdbufWF_bounds h
  have h0 : CmdbufWF { st with ok := st.ok && decide (st.read ≠ 128) } pending := by
    obtain ⟨hlen, hok, hshape⟩ := h
    refine ⟨hlen, ?_, hshape⟩
    simp [hok]
    omega
  obtain ⟨p1, hW1, hE1, hG1⟩ := step1_WF c.length h0
  obtain ⟨p2, hW2, hE2, hG2a, hG2b⟩ := step2_WF c.length hW1 (by omega) (by omega) hG1
  obtain ⟨p3, hW3, hE3⟩ := step3_WF hW2 hc (by omega) hG2b
  refine ⟨p3, hW3, ?_⟩
  show (push_step3 c (push_step2 c.length (push_step1 c.length
    { st with ok := st.ok && decide (st.read ≠ 128) }))).executed ++ p3 =
      st.executed ++ (pending ++ [c])
  rw [hE3, ← List.append_assoc, hE2, hE1]
  simp

theorem foldl_push_WF : ∀ (cmds : List (List Nat)), (∀ x ∈ cmds, ValidCmd x) →
    ∀ {st : tile_cmdbuf_t} {pending : List (List Nat)}, CmdbufWF st pending →
      ∃ pending2, CmdbufWF (cmds.foldl framebuffer_push_tilecmd st) pending2 ∧
        (cmds.foldl framebuffer_push_tilecmd st).executed ++ pending2 =
          st.executed ++ pending ++ cmds := by
  intro cmds
  induction cmds with
  | nil =>
    intro _ st pending h
    exact ⟨pending, h, by simp⟩
  | cons c cmds ih =>
    intro hv st pending h
    obtain ⟨p1, hW1, hE1⟩ := push_WF h (hv c (by simp))
    obtain ⟨p2, hW2, hE2⟩ := ih (fun x hx => hv x (by simp [hx])) hW1
    refine ⟨p2, hW2, ?_⟩
    simp only [List.foldl_cons]
    rw [hE2, hE1]
    simp

theorem reachable_WF {st : tile_cmdbuf_t} (h : CmdbufReachable st) :
    ∃ pending, CmdbufWF st pending := by
  induction h with
  | init =>
    exact ⟨[], ⟨by simp [cmdbuf_init], rfl, Or.inl ⟨le_refl 0, Nat.zero_le 127,
      parseRegion_nil (List.replicate 128 0) 0⟩⟩⟩
  | push hst hc ih =>
    obtain ⟨p, hW⟩ := ih
    obtain ⟨p2, hW2, _⟩ := push_WF hW hc
    exact ⟨p2, hW2⟩
  | resolve hst ih =>
    obtain ⟨p, hW⟩ := ih
    exact ⟨[], resolve_WF hW⟩

/-- C1: the fixed 128-dword ring buffer with its in-line flushes and
`resetbuf` wrap markers consumes, for any sequence of well-formed commands
pushed to one tile, exactly that sequence, in order, each command once; the
resolved planes therefore equal those of a framebuffer whose per-tile
command queue is unbounded (executing the pushed commands directly). -/
theorem claim_C1 (cmds : List (List Nat)) (hv : ∀ x ∈ cmds, ValidCmd x)
    (wit tile_id : Nat) (st0 : RasterSt) :
    (runTile cmds).executed = cmds ∧ (runTile cmds).ok = true ∧
      apply_tilecmds wit tile_id (runTile cmds).executed st0 =
        apply_tilecmds wit tile_id cmds st0 := by
  have hinit : CmdbufWF cmdbuf_init [] :=
    ⟨by simp [cmdbuf_init], rfl, Or.inl ⟨le_refl 0, Nat.zero_le 127,
      parseRegion_nil (List.replicate 128 0) 0⟩⟩
  obtain ⟨pend, hW, hE⟩ := foldl_push_WF cmds hv hinit
  have hres := resolve_eq hW
  have hexec : (runTile cmds).executed = cmds := by
    unfold runTile
    rw [hres]
    simpa [cmdbuf_init] using hE
  refine ⟨hexec, ?_, by rw [hexec]⟩
  unfold runTile
  rw [hres]
  exact hW.2.1

/-- Witness for C1: a concrete two-command sequence through the ring. -/
theorem claim_C1_witness :
    (runTile [[6, 7], [6, 9]]).executed = [[6, 7], [6, 9]] ∧
      (runTile [[6, 7], [6, 9]]).ok = true ∧
      apply_tilecmds 1 0 (runTile [[6, 7], [6, 9]]).executed { planes := planes0, ok := true } =
        apply_tilecmds 1 0 [[6, 7], [6, 9]] { planes := planes0, ok := true } :=
  claim_C1 [[6, 7], [6, 9]] (by decide) 1 0 { planes := planes0, ok := true }

/-- C4: in every ring-buffer state reachable by pushes of well-formed
commands and resolves, the read and write cursors lie in `[0, 127]` — i.e.
within `[start, end]` with `end = 128` past-the-end, and neither rests at
`end` once the operation completes — and every `assert` evaluated along the
way held, including the separation assert that the write cursor never
catches up to the read cursor from behind. -/
theorem claim_C4 (st : tile_cmdbuf_t) (h : CmdbufReachable st) :
    st.read ≤ 127 ∧ st.write ≤ 127 ∧ st.ok = true := by
  obtain ⟨pending, hW⟩ := reachable_WF h
  have hb := CmdbufWF_bounds hW
  exact ⟨hb.1, hb.2.1, hW.2.1⟩

/-- Witness for C4: the state after pushing one clear command. -/
theorem claim_C4_witness :
    (framebuffer_push_tilecmd cmdbuf_init [6, 3]).read ≤ 127 ∧
      (framebuffer_push_tilecmd cmdbuf_init [6, 3]).write ≤ 127 ∧
      (framebuffer_push_tilecmd cmdbuf_init [6, 3]).ok = true :=
  claim_C4 _ (CmdbufReachable.push CmdbufReachable.init (by decide))

theorem RasterSt_eq {a b : RasterSt} (h1 : a.planes = b.planes) (h2 : a.ok = b.ok) :
    a = b := by
  cases a
  cases b
  simp only [RasterSt.mk.injEq]
  exact ⟨h1, h2⟩

theorem framebuffer_clear_planes (wit color : Nat) :
    ∀ (n : Nat) (s : RasterSt) (px : Nat),
      (framebuffer_clear wit n color s).ok = s.ok ∧
      (framebuffer_clear wit n color s).planes px =
        (if px < PIXELS_PER_TILE * n then (color % 2 ^ 32, 0xFFFFFFFF) else s.planes px) := by
  intro n
  induction n with
  | zero =>
    intro s px
    simp [framebuffer_clear, PIXELS_PER_TILE]
  | succ n ih =>
    intro s px
    have hstep : framebuffer_clear wit (n + 1) color s =
        apply_tilecmd wit n (framebuffer_clear wit n color s)
          (tilecmd_cleartile_dwords color) := by
      unfold framebuffer_clear
      rw [List.range_succ, List.foldl_append]
      rfl
    have happ : ∀ (q : RasterSt), apply_tilecmd wit n q (tilecmd_cleartile_dwords color) =
        { q with planes := clear_tile (color % 2 ^ 32) n q.planes } := by
      intro q
      simp [apply_tilecmd, tilecmd_cleartile_dwords]
    rw [hstep, happ]
    refine ⟨(ih s px).1, ?_⟩
    show clear_tile (color % 2 ^ 32) n (framebuffer_clear wit n color s).planes px = _
    unfold clear_tile
    rw [(ih s px).2]
    simp only [PIXELS_PER_TILE]
    split_ifs <;> first | rfl | (exfalso; omega)

/-- C7: `clear` is idempotent — two successive clears equal one clear, whose
planes hold the clear color and depth `0xFFFFFFFF` on every covered pixel —
and executing one `cleartile` command on a tile fills exactly that tile's
color words with the value and resets its depth words to `0xFFFFFFFF`,
leaving other pixels untouched. -/
theorem claim_C7 (wit N color : Nat) (st : RasterSt) :
    framebuffer_clear wit N color (framebuffer_clear wit N color st) =
      framebuffer_clear wit N color st ∧
    (∀ px, px < PIXELS_PER_TILE * N →
      (framebuffer_clear wit N color st).planes px = (color % 2 ^ 32, 0xFFFFFFFF)) ∧
    (∀ (t : Nat) (s : RasterSt) (px : Nat),
      (apply_tilecmd wit t s (tilecmd_cleartile_dwords color)).ok = s.ok ∧
      ((PIXELS_PER_TILE * t ≤ px ∧ px < PIXELS_PER_TILE * t + PIXELS_PER_TILE) →
        (apply_tilecmd wit t s (tilecmd_cleartile_dwords color)).planes px =
          (color % 2 ^ 32, 0xFFFFFFFF)) ∧
      (¬(PIXELS_PER_TILE * t ≤ px ∧ px < PIXELS_PER_TILE * t + PIXELS_PER_TILE) →
        (apply_tilecmd wit t s (tilecmd_cleartile_dwords color)).planes px = s.planes px)) := by
  refine ⟨?_, ?_, ?_⟩
  · apply RasterSt_eq
    · funext px
      rw [(framebuffer_clear_planes wit color N (framebuffer_clear wit N color st) px).2,
        (framebuffer_clear_planes wit color N st px).2]
      split_ifs <;> rfl
    · rw [(framebuffer_clear_planes wit color N (framebuffer_clear wit N color st) 0).1]
  · intro px hpx
    rw [(framebuffer_clear_planes wit color N st px).2, if_pos hpx]
  · intro t s px
    have happ : apply_tilecmd wit t s (tilecmd_cleartile_dwords color) =
        { s with planes := clear_tile (color % 2 ^ 32) t s.planes } := by
      simp [apply_tilecmd, tilecmd_cleartile_dwords]
    rw [happ]
    refine ⟨rfl, ?_, ?_⟩
    · intro hin
      show clear_tile (color % 2 ^ 32) t s.planes px = _
      unfold clear_tile
      rw [if_pos hin]
    · intro hout
      show clear_tile (color % 2 ^ 32) t s.planes px = _
      unfold clear_tile
      rw [if_neg hout]

/-- Witness for C7: one cleared pixel of a one-tile framebuffer. -/
theorem claim_C7_witness :
    (framebuffer_clear 1 1 7 { planes := planes0, ok := true }).planes 5 =
      (7, 0xFFFFFFFF) :=
  (claim_C7 1 1 7 { planes := planes0, ok := true }).2.1 5 (by decide)

theorem foldl_rel {α β : Type} {R : β → β → Prop} (hrefl : ∀ b, R b b)
    (htrans : ∀ a b c, R a b → R b c → R a c) (f : β → α → β)
    (hstep : ∀ b a, R (f b a) b) : ∀ (l : List α) (b : β), R (l.foldl f b) b := by
  intro l
  induction l with
  | nil =>
    intro b
    exact hrefl b
  | cons x l ih =>
    intro b
    exact htrans _ _ _ (ih (f b x)) (hstep b x)

theorem shade_branch_le {cd : Nat × Nat} {z x : Nat} {o : Bool} :
    ((if z < cd.2 then ((x, z), o) else (cd, o)).1.2) ≤ cd.2 := by
  split_ifs with h
  · exact Nat.le_of_lt h
  · exact le_refl _

theorem smalltri_pixel_op_depth (cmd : tilecmd_drawsmalltri_t) (e0 e1 e2 : Int)
    (i : Nat) (st : RasterSt) (px : Nat) :
    ((smalltri_pixel_op cmd e0 e1 e2 i st).planes px).2 ≤ (st.planes px).2 := by
  unfold smalltri_pixel_op
  split_ifs with h
  · exact le_refl _
  · show (if px = i then (smalltri_shade_pixel cmd e0 e1 e2 (st.planes i)).1
      else st.planes px).2 ≤ (st.planes px).2
    by_cases hp : px = i
    · subst hp
      rw [if_pos rfl]
      exact shade_branch_le
    · rw [if_neg hp]

theorem largetri_pixel_op_depth (cmd : tilecmd_drawtile_t) (n : Nat) (e0 e1 e2 : Int)
    (i : Nat) (st : RasterSt) (px : Nat) :
    ((largetri_pixel_op cmd n e0 e1 e2 i st).planes px).2 ≤ (st.planes px).2 := by
  unfold largetri_pixel_op
  split_ifs with h
  · exact le_refl _
  · show (if px = i then (largetri_shade_pixel cmd n e0 e1 e2 (st.planes i)).1
      else st.planes px).2 ≤ (st.planes px).2
    by_cases hp : px = i
    · subst hp
      rw [if_pos rfl]
      exact shade_branch_le
    · rw [if_neg hp]

theorem draw_coarse_block_smalltri_depth (t ctx cty : Nat)
    (cmd : tilecmd_drawsmalltri_t) (st : RasterSt) (px : Nat) :
    ((draw_coarse_block_smalltri t ctx cty cmd st).planes px).2 ≤ (st.planes px).2 := by
  unfold draw_coarse_block_smalltri
  apply foldl_rel (R := fun a b : I3 × Nat × RasterSt =>
    (a.2.2.planes px).2 ≤ (b.2.2.planes px).2)
  · intro b
    exact le_refl _
  · intro a b c h1 h2
    exact le_trans h1 h2
  · intro b a
    apply foldl_rel (R := fun a2 b2 : I3 × Nat × RasterSt =>
      (a2.2.2.planes px).2 ≤ (b2.2.2.planes px).2)
    · intro b2
      exact le_refl _
    · intro x y z h1 h2
      exact le_trans h1 h2
    · intro b2 a2
      exact smalltri_pixel_op_depth cmd _ _ _ _ _ px

theorem draw_coarse_block_largetri_depth (t ctx cty : Nat)
    (cmd : tilecmd_drawtile_t) (st : RasterSt) (px : Nat) :
    ((draw_coarse_block_largetri t ctx cty cmd st).planes px).2 ≤ (st.planes px).2 := by
  unfold draw_coarse_block_largetri
  apply foldl_rel (R := fun a b : I3 × Nat × RasterSt =>
    (a.2.2.planes px).2 ≤ (b.2.2.planes px).2)
  · intro b
    exact le_refl _
  · intro a b c h1 h2
    exact le_trans h1 h2
  · intro b a
    apply foldl_rel (R := fun a2 b2 : I3 × Nat × RasterSt =>
      (a2.2.2.planes px).2 ≤ (b2.2.2.planes px).2)
    · intro b2
      exact le_refl _
    · intro x y z h1 h2
      exact le_trans h1 h2
    · intro b2 a2
      exact largetri_pixel_op_depth cmd _ _ _ _ _ _ px

set_option maxRecDepth 8000 in
set_option maxHeartbeats 1600000 in
theorem draw_tile_smalltri_depth (wit t : Nat) (cmd : tilecmd_drawsmalltri_t)
    (st : RasterSt) (px : Nat) :
    ((draw_tile_smalltri wit t cmd st).planes px).2 ≤ (st.planes px).2 := by
  unfold draw_tile_smalltri
  simp only []
  apply foldl_rel (R := fun a b : I3 × RasterSt =>
    (a.2.planes px).2 ≤ (b.2.planes px).2)
  · intro b
    exact le_refl _
  · intro a b c h1 h2
    exact le_trans h1 h2
  · intro b a
    simp only []
    apply foldl_rel (R := fun a2 b2 : I3 × RasterSt =>
      (a2.2.planes px).2 ≤ (b2.2.planes px).2)
    · intro b2
      exact le_refl _
    · intro x y z h1 h2
      exact le_trans h1 h2
    · intro b2 a2
      simp only []
      exact draw_coarse_block_smalltri_depth _ _ _ _ _ px

set_option maxRecDepth 8000 in
set_option maxHeartbeats 1600000 in
theorem draw_tile_largetri_depth (wit t : Nat) (cmd : tilecmd_drawtile_t)
    (st : RasterSt) (px : Nat) :
    ((draw_tile_largetri wit t cmd st).planes px).2 ≤ (st.planes px).2 := by
  unfold draw_tile_largetri
  simp only []
  apply foldl_rel (R := fun a b : (I3 × I3 × I3) × RasterSt =>
    (a.2.planes px).2 ≤ (b.2.planes px).2)
  · intro b
    exact le_refl _
  · intro a b c h1 h2
    exact le_trans h1 h2
  · intro b a
    simp only []
    apply foldl_rel (R := fun a2 b2 : (I3 × I3 × I3) × RasterSt =>
      (a2.2.planes px).2 ≤ (b2.2.planes px).2)
    · intro b2
      exact le_refl _
    · intro x y z h1 h2
      exact le_trans h1 h2
    · intro b2 a2
      simp only []
      split_ifs <;> first
        | exact le_refl _
        | exact draw_coarse_block_largetri_depth _ _ _ _ _ px

/-- C10: dispatching any draw command (small-triangle or any of the
`drawtile` variants) never increases a pixel's stored depth word; the only
command that can raise a depth word is `cleartile`, which sets it to
`0xFFFFFFFF` (pixels of its tile) or leaves it unchanged (other pixels). -/
theorem claim_C10 (ws : List Nat) (wit t : Nat) (st : RasterSt) (px : Nat) :
    (ws.getD 0 0 ≠ 6 → ((apply_tilecmd wit t st ws).planes px).2 ≤ (st.planes px).2) ∧
    (ws.getD 0 0 = 6 → ((apply_tilecmd wit t st ws).planes px).2 = 0xFFFFFFFF ∨
      (apply_tilecmd wit t st ws).planes px = st.planes px) := by
  constructor
  · intro h6
    unfold apply_tilecmd
    simp only []
    split_ifs with h1 h2
    · exact draw_tile_smalltri_depth _ _ _ _ px
    · exact draw_tile_largetri_depth _ _ _ _ px
    · exact le_refl _
  · intro h6
    unfold apply_tilecmd
    simp only []
    rw [if_neg (by omega), if_neg (by omega), if_pos h6]
    show (clear_tile (ws.getD 1 0) t st.planes px).2 = 0xFFFFFFFF ∨
      clear_tile (ws.getD 1 0) t st.planes px = st.planes px
    unfold clear_tile
    split_ifs with h
    · left
      rfl
    · right
      rfl

/-- Witness for C10: a clear command resets one pixel's depth word. -/
theorem claim_C10_witness :
    ((apply_tilecmd 1 0 { planes := planes0, ok := true } [6, 7]).planes 3).2 = 0xFFFFFFFF ∨
      (apply_tilecmd 1 0 { planes := planes0, ok := true } [6, 7]).planes 3 =
        ({ planes := planes0, ok := true } : RasterSt).planes 3 :=
  (claim_C10 [6, 7] 1 0 { planes := planes0, ok := true } 3).2 rfl

theorem nat_half_div (t b : Nat) : (t + b / 2) / b = (2 * t + b) / (2 * b) := by
  rw [← Nat.div_div_eq_div_mul, Nat.add_comm (2 * t) b,
    Nat.add_mul_div_left b t (by omega : 0 < 2), Nat.add_comm (b / 2) t]

theorem tdiv_half_round (n b : Int) (hb : b ≠ 0) :
    Int.tdiv (if (0 ≤ n ∧ 0 ≤ b) ∨ (n < 0 ∧ b < 0) then n + Int.tdiv b 2
      else n - Int.tdiv b 2) b = roundHalfAway n b := by
  rcases le_or_lt 0 n with hn | hn
  · rcases lt_or_le 0 b with hbp | hbn
    · obtain ⟨nn, rfl⟩ := Int.eq_ofNat_of_zero_le hn
      obtain ⟨bb, rfl⟩ := Int.eq_ofNat_of_zero_le (le_of_lt hbp)
      rw [if_pos (Or.inl ⟨hn, le_of_lt hbp⟩)]
      rw [show Int.tdiv (bb : Int) 2 = ((bb / 2 : Nat) : Int) from rfl]
      rw [show ((nn : Int)) + ((bb / 2 : Nat) : Int) = ((nn + bb / 2 : Nat) : Int) from rfl]
      rw [show Int.tdiv ((nn + bb / 2 : Nat) : Int) (bb : Int) =
        (((nn + bb / 2) / bb : Nat) : Int) from rfl]
      unfold roundHalfAway
      rw [if_pos (mul_nonneg hn (le_of_lt hbp))]
      simp only [Int.natAbs_ofNat]
      rw [nat_half_div]
    · have hbneg : b < 0 := lt_of_le_of_ne hbn hb
      obtain ⟨nn, rfl⟩ := Int.eq_ofNat_of_zero_le hn
      obtain ⟨bb, rfl⟩ : ∃ m : Nat, b = -(m : Int) := ⟨b.natAbs, by omega⟩
      have hbb : 0 < bb := by omega
      rw [if_neg (by omega)]
      rw [Int.neg_tdiv, show Int.tdiv (bb : Int) 2 = ((bb / 2 : Nat) : Int) from rfl,
        sub_neg_eq_add]
      rw [show ((nn : Int)) + ((bb / 2 : Nat) : Int) = ((nn + bb / 2 : Nat) : Int) from rfl]
      rw [Int.tdiv_neg]
      rw [show Int.tdiv ((nn + bb / 2 : Nat) : Int) (bb : Int) =
        (((nn + bb / 2) / bb : Nat) : Int) from rfl]
      unfold roundHalfAway
      by_cases h0 : nn = 0
      · subst h0
        rw [if_pos (by simp)]
        simp only [Int.natAbs_neg, Int.natAbs_ofNat, Int.natAbs_zero]
        have e1 : ((0 : Nat) + bb / 2) / bb = 0 := Nat.div_eq_of_lt (by omega)
        have e2 : (2 * 0 + bb) / (2 * bb) = 0 := Nat.div_eq_of_lt (by omega)
        rw [e1, e2]
        simp
      · have hlt : ((nn : Int)) * -((bb : Int)) < 0 :=
          mul_neg_of_pos_of_neg (by omega) (by omega)
        rw [if_neg (not_le.mpr hlt)]
        simp only [Int.natAbs_neg, Int.natAbs_ofNat]
        rw [nat_half_div]
  · rcases lt_or_le 0 b with hbp | hbn
    · obtain ⟨nn, rfl⟩ : ∃ m : Nat, n = -(m : Int) := ⟨n.natAbs, by omega⟩
      obtain ⟨bb, rfl⟩ := Int.eq_ofNat_of_zero_le (le_of_lt hbp)
      have hnn : 0 < nn := by omega
      rw [if_neg (by omega)]
      rw [show Int.tdiv (bb : Int) 2 = ((bb / 2 : Nat) : Int) from rfl]
      rw [show -((nn : Int)) - ((bb / 2 : Nat) : Int) = -((nn + bb / 2 : Nat) : Int) from by
        push_cast
        ring]
      rw [Int.neg_tdiv]
      rw [show Int.tdiv ((nn + bb / 2 : Nat) : Int) (bb : Int) =
        (((nn + bb / 2) / bb : Nat) : Int) from rfl]
      unfold roundHalfAway
      have hlt : -((nn : Int)) * ((bb : Int)) < 0 :=
        mul_neg_of_neg_of_pos (by omega) (by omega)
      rw [if_neg (not_le.mpr hlt)]
      simp only [Int.natAbs_neg, Int.natAbs_ofNat]
      rw [nat_half_div]
    · have hbneg : b < 0 := lt_of_le_of_ne hbn hb
      obtain ⟨nn, rfl⟩ : ∃ m : Nat, n = -(m : Int) := ⟨n.natAbs, by omega⟩
      obtain ⟨bb, rfl⟩ : ∃ m : Nat, b = -(m : Int) := ⟨b.natAbs, by omega⟩
      have hnn : 0 < nn := by omega
      have hbb : 0 < bb := by omega
      rw [if_pos (Or.inr ⟨hn, hbneg⟩)]
      rw [Int.neg_tdiv, show Int.tdiv (bb : Int) 2 = ((bb / 2 : Nat) : Int) from rfl]
      rw [show -((nn : Int)) + -((bb / 2 : Nat) : Int) = -((nn + bb / 2 : Nat) : Int) from by
        push_cast
        ring]
      rw [Int.neg_tdiv, Int.tdiv_neg, neg_neg]
      rw [show Int.tdiv ((nn + bb / 2 : Nat) : Int) (bb : Int) =
        (((nn + bb / 2) / bb : Nat) : Int) from rfl]
      unfold roundHalfAway
      have hpos : (0:Int) ≤ -((nn : Int)) * -((bb : Int)) :=
        le_of_lt (mul_pos_of_neg_of_neg (by omega) (by omega))
      rw [if_pos hpos]
      simp only [Int.natAbs_neg, Int.natAbs_ofNat]
      rw [nat_half_div]

/-- C3 counterexample: at `a = 0x40000000` (16384.0) and `b = 0x8000`
(0.5) the true quotient `2^31` does not fit in `int32_t`; the code wraps
to `-2^31` where the claim says it saturates to `0x7FFFFFFF`. -/
theorem claim_C3_counterexample :
    s1516_div 1073741824 32768 = -2147483648 ∧
      s1516_div_claimed 1073741824 32768 = 2147483647 ∧
      s1516_div 1073741824 32768 ≠ s1516_div_claimed 1073741824 32768 := by
  decide

/-- C3 (amended): for every `b ≠ 0`, `s1516_div a b` equals the quotient
`(a << 16) / b` rounded half away from zero and then *wrapped* (not
saturated) to 32 bits: the pre-division bias `± b/2` implements exactly
round-half-away-from-zero, but the final `(int32_t)` cast truncates
modulo `2^32`. -/
theorem claim_C3 (a b : Int) (hb : b ≠ 0) :
    s1516_div a b = wrap32 (roundHalfAway (a * 2 ^ 16) b) := by
  unfold s1516_div
  simp only []
  rw [tdiv_half_round (a * 2 ^ 16) b hb]

/-- Witness for C3 at `a = 1.0`, `b = 2.0`. -/
theorem claim_C3_witness :
    s1516_div 65536 131072 = wrap32 (roundHalfAway (65536 * 2 ^ 16) 131072) :=
  claim_C3 65536 131072 (by decide)

/-- C5 counterexample: the vertical edge from `(0, 256)` down to `(0, 0)`
goes strictly upward in window coordinates (`v1y < vy`), which the claim's
top/left wording (`claimed_top_or_left`) does not cover — yet the code
decrements it, in both the small and the large setup path. -/
theorem claim_C5_counterexample :
    edge_delta_applies 0 256 0 0 = true ∧
      claimed_top_or_left 0 256 0 0 = false ∧
      small_edge_preshift 0 256 0 0 ≠
        small_edge_raw 0 256 0 0 - (if claimed_top_or_left 0 256 0 0 then 1 else 0) ∧
      large_edge_preshift 16 16 0 256 0 0 ≠
        large_edge_raw 16 16 0 256 0 0 - (if claimed_top_or_left 0 256 0 0 then 1 else 0) := by
  decide

/-- C5 (amended): in both setup paths the edge value at the sample point is
decremented by exactly 1 before the `>> 8` truncation iff the edge is
horizontal and goes left-to-right (`vx < v1x`), or goes strictly upward
(`v1y < vy`); all other edges are left unadjusted.  (The claim has the two
orientations backwards.) -/
theorem claim_C5 (vx vy v1x v1y ftx fty : Int) :
    small_edge_preshift vx vy v1x v1y =
      small_edge_raw vx vy v1x v1y -
        (if (vy = v1y ∧ vx < v1x) ∨ v1y < vy then 1 else 0) ∧
    large_edge_preshift ftx fty vx vy v1x v1y =
      large_edge_raw ftx fty vx vy v1x v1y -
        (if (vy = v1y ∧ vx < v1x) ∨ v1y < vy then 1 else 0) := by
  unfold small_edge_preshift large_edge_preshift
  by_cases hc : (vy = v1y ∧ vx < v1x) ∨ v1y < vy
  · rw [if_pos (by simpa [edge_delta_applies] using hc), if_pos hc]
    exact ⟨rfl, rfl⟩
  · rw [if_neg (by simpa [edge_delta_applies] using hc), if_neg hc]
    exact ⟨rfl, rfl⟩

/-- C6 (code bug): every vertex of `c6tri` lies at or beyond the far plane
(`w ≤ z`), which the claim says is silently discarded with no commands
enqueued; instead, because `v0.w` is negative, the near-clip stage runs
first and its fixed-point interpolation (half-up rounding in `s1516_mul`)
produces sub-triangle vertices with `z = 0` but small positive `w`, so the
result escapes the far test and two draw commands (one `drawsmalltri` and
one `drawtile_3edge`) are enqueued for tile 0. -/
theorem claim_C6_eval :
    (c6tri.v0.w ≤ c6tri.v0.z ∧ c6tri.v1.w ≤ c6tri.v1.z ∧ c6tri.v2.w ≤ c6tri.v2.z) ∧
      (rasterize_triangle fb128 8 c6tri).map List.length = some 2 ∧
      (rasterize_triangle fb128 8 c6tri).map (List.map (fun p => tou32 p.1)) =
        some [0, 0] := by
  refine ⟨by decide, by decide, by decide⟩

/-- C9 counterexample: one extra recursive call (fuel 2) does not suffice
for `c9tri` — its far-clip split produces a sub-triangle that itself needs
a near-clip split, so recursion depth two (fuel 3) is required. -/
theorem claim_C9_counterexample :
    rasterize_triangle fb128 2 c9tri = none ∧
      (rasterize_triangle fb128 3 c9tri).isSome = true := by
  exact ⟨by decide, by decide⟩

/-- C9 (amended): the self-recursion happens only when clipping is needed —
a triangle whose vertices all satisfy `0 ≤ z < w` rasterizes with no
recursive call, so it terminates at one fuel unit — but the
one-vertex-outside recursion can nest beyond one extra call: `c9tri` has no
vertex behind the near plane and exactly one vertex (`v0`) at or beyond the
far plane, the far-clip split replaces `v0` by an interpolated vertex with
`z = w - 1 < 0`, and that sub-triangle (the actual recursive argument)
needs a near-clip split in turn, so `c9tri` needs — and terminates at —
recursion depth two: fuel 2 fails, fuel 3 completes.  Termination is thus
established for clip-free triangles and for `c9tri`; the claimed bound of
at most one extra call is wrong. -/
theorem claim_C9 (fb : fbdims_t) (f : Nat) (t : tri_t)
    (h0 : 0 ≤ t.v0.z) (h1 : 0 ≤ t.v1.z) (h2 : 0 ≤ t.v2.z)
    (h3 : t.v0.z < t.v0.w) (h4 : t.v1.z < t.v1.w) (h5 : t.v2.z < t.v2.w) :
    (rasterize_triangle fb (f + 1) t).isSome = true ∧
      ((¬ c9tri.v0.z < 0 ∧ ¬ c9tri.v1.z < 0 ∧ ¬ c9tri.v2.z < 0) ∧
        (c9tri.v0.w ≤ c9tri.v0.z ∧ ¬ c9tri.v1.w ≤ c9tri.v1.z ∧
          ¬ c9tri.v2.w ≤ c9tri.v2.z)) ∧
      ((tri_set c9tri 0 (far_interp_vertex c9tri.v0 c9tri.v1)).v0.z < 0 ∧
        0 ≤ (tri_set c9tri 0 (far_interp_vertex c9tri.v0 c9tri.v1)).v1.z ∧
        0 ≤ (tri_set c9tri 0 (far_interp_vertex c9tri.v0 c9tri.v1)).v2.z) ∧
      rasterize_triangle fb128 2 c9tri = none ∧
      (rasterize_triangle fb128 3 c9tri).isSome = true := by
  refine ⟨?_, by decide, by decide, by decide, by decide⟩
  rw [rasterize_triangle]
  have d0 : decide (t.v0.z < 0) = false := by
    simp
    omega
  have d1 : decide (t.v1.z < 0) = false := by
    simp
    omega
  have d2 : decide (t.v2.z < 0) = false := by
    simp
    omega
  have e0 : decide (t.v0.w ≤ t.v0.z) = false := by
    simp
    omega
  have e1 : decide (t.v1.w ≤ t.v1.z) = false := by
    simp
    omega
  have e2 : decide (t.v2.w ≤ t.v2.z) = false := by
    simp
    omega
  simp [d0, d1, d2, e0, e1, e2]

/-- Witness for C9: an all-inside triangle rasterizes at fuel 1. -/
theorem claim_C9_witness :
    (rasterize_triangle fb128 (0 + 1)
      { v0 := { x := 0, y := 0, z := 0, w := 65536 }
        v1 := { x := 65536, y := 0, z := 0, w := 65536 }
        v2 := { x := 0, y := 65536, z := 0, w := 65536 } }).isSome = true ∧
      ((¬ c9tri.v0.z < 0 ∧ ¬ c9tri.v1.z < 0 ∧ ¬ c9tri.v2.z < 0) ∧
        (c9tri.v0.w ≤ c9tri.v0.z ∧ ¬ c9tri.v1.w ≤ c9tri.v1.z ∧
          ¬ c9tri.v2.w ≤ c9tri.v2.z)) ∧
      ((tri_set c9tri 0 (far_interp_vertex c9tri.v0 c9tri.v1)).v0.z < 0 ∧
        0 ≤ (tri_set c9tri 0 (far_interp_vertex c9tri.v0 c9tri.v1)).v1.z ∧
        0 ≤ (tri_set c9tri 0 (far_interp_vertex c9tri.v0 c9tri.v1)).v2.z) ∧
      rasterize_triangle fb128 2 c9tri = none ∧
      (rasterize_triangle fb128 3 c9tri).isSome = true :=
  claim_C9 fb128 0 _ (by decide) (by decide) (by decide) (by decide) (by decide) (by decide)

set_option maxRecDepth 1000000 in
set_option maxHeartbeats 4000000 in
/-- C8 (code bug): the on-screen triangle `c8tri` rasterizes to one
`drawsmalltri` command for tile 0, and executing that command makes the
pixel loop's `assert(u < 0x8000)` fail: at the covered pixel (21, 20) the
reciprocal-scaled barycentric `u` computes to `0x807F`. -/
theorem claim_C8_eval :
    (rasterize_triangle fb128 1 c8tri).map
        (fun l => l.map (fun p => (tou32 p.1, p.2))) =
      some [(0, [1, 5098, 4294959507, 2560, 1, 128, 4294967167, 4294967040, 255, 1,
        0, 0, 0, 0, 0, 32511, 1, 1, 1, 1])] ∧
      (draw_tile_smalltri 1 0 (decode_drawsmalltri
        [1, 5098, 4294959507, 2560, 1, 128, 4294967167, 4294967040, 255, 1,
          0, 0, 0, 0, 0, 32511, 1, 1, 1, 1]) { planes := planes0, ok := true }).ok
        = false := by
  refine ⟨by decide, by decide⟩

theorem wrap32_small {x : Int} (h1 : -(2 ^ 31) ≤ x) (h2 : x < 2 ^ 31) : wrap32 x = x := by
  unfold wrap32
  omega

theorem tou32_small {x : Int} (h1 : 0 ≤ x) (h2 : x < 2 ^ 32) : tou32 x = x.toNat := by
  unfold tou32
  omega

theorem tdiv_shift_eq (m s : Nat) (h : m / 128 * 2 ^ s < 2 ^ 31) :
    tou32 (wrap32 (Int.tdiv (m : Int) 128 * 2 ^ s)) = (m / 128) <<< s := by
  have h1 : ((m / 128 * 2 ^ s : Nat) : Int) = Int.tdiv (m : Int) 128 * 2 ^ s := by
    rw [Nat.cast_mul, Nat.cast_pow,
      show Int.tdiv (m : Int) 128 = ((m / 128 : Nat) : Int) from rfl]
    norm_num
  rw [← h1]
  rw [wrap32_small (by omega) (by omega)]
  rw [tou32_small (by omega) (by omega)]
  rw [Nat.shiftLeft_eq]
  exact Int.toNat_natCast _

theorem tdiv_plain_eq (m : Nat) (h : m / 128 < 2 ^ 32) :
    tou32 (Int.tdiv (m : Int) 128) = m / 128 := by
  rw [show Int.tdiv (m : Int) 128 = ((m / 128 : Nat) : Int) from rfl]
  rw [tou32_small (by omega) (by omega)]
  exact Int.toNat_natCast _

theorem clamp_pixel_Z_eq (minZ maxZ z : Nat)
    (h : (minZ * 2 ^ 15) % 2 ^ 32 ≤ (maxZ * 2 ^ 15) % 2 ^ 32) :
    clamp_pixel_Z minZ maxZ z =
      max ((minZ * 2 ^ 15) % 2 ^ 32) (min ((maxZ * 2 ^ 15) % 2 ^ 32) z) := by
  unfold clamp_pixel_Z
  simp only []
  rw [Nat.max_def, Nat.min_def]
  split_ifs <;> omega

theorem shade_color_eq (u v : Int) (hu0 : 0 ≤ u) (hu1 : u < 0x8000)
    (hv0 : 0 ≤ v) (hv1 : v < 0x8000) (hw0 : 0 ≤ 0x7FFF - u - v) :
    shade_color_word u v (wrap32 (0x7FFF - u - v)) =
      (0xFF <<< 24) ||| (((0x7FFF - u - v).toNat / 0x80) <<< 16) |||
        ((u.toNat / 0x80) <<< 8) ||| (v.toNat / 0x80) := by
  obtain ⟨nu, hnu⟩ := Int.eq_ofNat_of_zero_le hu0
  obtain ⟨nv, hnv⟩ := Int.eq_ofNat_of_zero_le hv0
  obtain ⟨nw, hnw⟩ := Int.eq_ofNat_of_zero_le hw0
  rw [wrap32_small (by omega) (by omega)]
  unfold shade_color_word
  rw [hnw, hnu, hnv]
  rw [tdiv_shift_eq nw 16 (by have := Nat.div_le_self nw 128; omega)]
  rw [tdiv_shift_eq nu 8 (by have := Nat.div_le_self nu 128; omega)]
  rw [tdiv_plain_eq nv (by have := Nat.div_le_self nv 128; omega)]
  simp

/-- C2: on a pixel that passes all required edge tests — all three edge
values negative in the small-triangle consumer, and the first `n` edge
values negative in the `drawtile_nedge` consumer for any `n` (so the
trivially-accepted `n = 0` tiles are covered too) — the pixel is updated
iff the interpolated depth
`(vertZ0 << 15) + u*(vertZ1-vertZ0) + v*(vertZ2-vertZ0)` clamped to
`[min_Z << 15, max_Z << 15]` (all modulo `2^32`) is strictly below the
stored depth word; on a pass the depth becomes that clamped value and the
color becomes `0xFF000000 | (w/0x80 << 16) | (u/0x80 << 8) | (v/0x80)`
with `w = 0x7FFF - u - v`, and otherwise — and on every other pixel — the
planes are unchanged.  In the large consumer `u` is forced to 0 when
`n < 3` and `v` when `n < 1`, as in the source.  Modelling hypotheses:
the clamp bounds are ordered and the reciprocal-scaled barycentrics lie
in `[0, 0x8000)` with `u + v ≤ 0x7FFF` (the regime the claim's formulas
describe; C8 covers their violation). -/
theorem claim_C2 (cmd : tilecmd_drawsmalltri_t) (cmdL : tilecmd_drawtile_t)
    (e0 e1 e2 f0 f1 f2 : Int) (n i j : Nat) (s1 s2 : RasterSt)
    (he0 : e0 < 0) (he1 : e1 < 0) (he2 : e2 < 0)
    (hpass : ¬((1 ≤ n ∧ f0 ≥ 0) ∨ (2 ≤ n ∧ f1 ≥ 0) ∨ (3 ≤ n ∧ f2 ≥ 0)))
    (hlo : (cmd.min_Z * 2 ^ 15) % 2 ^ 32 ≤ (cmd.max_Z * 2 ^ 15) % 2 ^ 32)
    (hloL : (cmdL.min_Z * 2 ^ 15) % 2 ^ 32 ≤ (cmdL.max_Z * 2 ^ 15) % 2 ^ 32)
    (hu0 : 0 ≤ smalltri_uv cmd.rcp_triarea2 e2)
    (hu1 : smalltri_uv cmd.rcp_triarea2 e2 < 0x8000)
    (hv0 : 0 ≤ smalltri_uv cmd.rcp_triarea2 e0)
    (hv1 : smalltri_uv cmd.rcp_triarea2 e0 < 0x8000)
    (hw0 : 0 ≤ 0x7FFF - smalltri_uv cmd.rcp_triarea2 e2 - smalltri_uv cmd.rcp_triarea2 e0)
    (hU0 : 0 ≤ largetri_uv cmdL.rcp_triarea2 f2)
    (hU1 : largetri_uv cmdL.rcp_triarea2 f2 < 0x8000)
    (hV0 : 0 ≤ largetri_uv cmdL.rcp_triarea2 f0)
    (hV1 : largetri_uv cmdL.rcp_triarea2 f0 < 0x8000)
    (hW0 : 0 ≤ 0x7FFF - largetri_uv cmdL.rcp_triarea2 f2 - largetri_uv cmdL.rcp_triarea2 f0) :
    ((smalltri_pixel_op cmd e0 e1 e2 i s1).planes i =
      (let u := smalltri_uv cmd.rcp_triarea2 e2
       let v := smalltri_uv cmd.rcp_triarea2 e0
       let z := max ((cmd.min_Z * 2 ^ 15) % 2 ^ 32) (min ((cmd.max_Z * 2 ^ 15) % 2 ^ 32)
         (tou32 (cmd.vert_Zs0 * 2 ^ 15 + u * (cmd.vert_Zs1 - cmd.vert_Zs0) +
           v * (cmd.vert_Zs2 - cmd.vert_Zs0))))
       if z < (s1.planes i).2 then
         ((0xFF <<< 24) ||| (((0x7FFF - u - v).toNat / 0x80) <<< 16) |||
           ((u.toNat / 0x80) <<< 8) ||| (v.toNat / 0x80), z)
       else s1.planes i)) ∧
    (∀ px, px ≠ i → (smalltri_pixel_op cmd e0 e1 e2 i s1).planes px = s1.planes px) ∧
    ((largetri_pixel_op cmdL n f0 f1 f2 j s2).planes j =
      (let u := if n < 3 then 0 else largetri_uv cmdL.rcp_triarea2 f2
       let v := if n < 1 then 0 else largetri_uv cmdL.rcp_triarea2 f0
       let z := max ((cmdL.min_Z * 2 ^ 15) % 2 ^ 32) (min ((cmdL.max_Z * 2 ^ 15) % 2 ^ 32)
         (tou32 (cmdL.vert_Zs0 * 2 ^ 15 + u * (cmdL.vert_Zs1 - cmdL.vert_Zs0) +
           v * (cmdL.vert_Zs2 - cmdL.vert_Zs0))))
       if z < (s2.planes j).2 then
         ((0xFF <<< 24) ||| (((0x7FFF - u - v).toNat / 0x80) <<< 16) |||
           ((u.toNat / 0x80) <<< 8) ||| (v.toNat / 0x80), z)
       else s2.planes j)) := by
  refine ⟨?_, ?_, ?_⟩
  · unfold smalltri_pixel_op
    rw [if_neg (by omega)]
    show (if i = i then (smalltri_shade_pixel cmd e0 e1 e2 (s1.planes i)).1
      else s1.planes i) = _
    rw [if_pos rfl]
    unfold smalltri_shade_pixel
    simp only []
    rw [apply_ite Prod.fst]
    rw [clamp_pixel_Z_eq _ _ _ hlo]
    unfold interp_pixel_Z
    rw [shade_color_eq _ _ hu0 hu1 hv0 hv1 hw0]
  · intro px hpx
    unfold smalltri_pixel_op
    rw [if_neg (by omega)]
    show (if px = i then (smalltri_shade_pixel cmd e0 e1 e2 (s1.planes i)).1
      else s1.planes px) = _
    rw [if_neg hpx]
  · have hU0' : 0 ≤ (if n < 3 then 0 else largetri_uv cmdL.rcp_triarea2 f2) := by
      split_ifs <;> omega
    have hU1' : (if n < 3 then 0 else largetri_uv cmdL.rcp_triarea2 f2) < 0x8000 := by
      split_ifs <;> omega
    have hV0' : 0 ≤ (if n < 1 then 0 else largetri_uv cmdL.rcp_triarea2 f0) := by
      split_ifs <;> omega
    have hV1' : (if n < 1 then 0 else largetri_uv cmdL.rcp_triarea2 f0) < 0x8000 := by
      split_ifs <;> omega
    have hW0' : 0 ≤ 0x7FFF - (if n < 3 then 0 else largetri_uv cmdL.rcp_triarea2 f2) -
        (if n < 1 then 0 else largetri_uv cmdL.rcp_triarea2 f0) := by
      split_ifs <;> omega
    unfold largetri_pixel_op
    rw [if_neg hpass]
    show (if j = j then (largetri_shade_pixel cmdL n f0 f1 f2 (s2.planes j)).1
      else s2.planes j) = _
    rw [if_pos rfl]
    unfold largetri_shade_pixel
    simp only []
    rw [apply_ite Prod.fst]
    rw [clamp_pixel_Z_eq _ _ _ hloL]
    unfold interp_pixel_Z
    rw [shade_color_eq _ _ hU0' hU1' hV0' hV1' hW0']

/-- Witness for C2: a fully-covered pixel of a degenerate-depth command
takes the shade color `0xFFFF0000` and depth 0, in the small consumer and
in the zero-edge (`n = 0`, trivially accepted) large consumer. -/
theorem claim_C2_witness :
    (smalltri_pixel_op (decode_drawsmalltri
      [1, 4294967295, 4294967295, 4294967295, 0, 0, 0, 0, 0, 0,
        0, 0, 0, 0, 0, 32513, 0, 0, 0, 0]) (-1) (-1) (-1) 0
      { planes := planes0, ok := true }).planes 0 = (0xFFFF0000, 0) ∧
    (largetri_pixel_op (decode_drawtile
      [2, 4294967295, 4294967295, 4294967295, 0, 0, 0, 0, 0, 0,
        0, 0, 0, 0, 0, 8323073]) 0 (-1) (-1) (-1) 0
      { planes := planes0, ok := true }).planes 0 = (0xFFFF0000, 0) := by
  have H := claim_C2 (decode_drawsmalltri
      [1, 4294967295, 4294967295, 4294967295, 0, 0, 0, 0, 0, 0,
        0, 0, 0, 0, 0, 32513, 0, 0, 0, 0])
    (decode_drawtile
      [2, 4294967295, 4294967295, 4294967295, 0, 0, 0, 0, 0, 0,
        0, 0, 0, 0, 0, 8323073])
    (-1) (-1) (-1) (-1) (-1) (-1) 0 0 0
    { planes := planes0, ok := true } { planes := planes0, ok := true }
    (by decide) (by decide) (by decide) (by decide) (by decide) (by decide)
    (by decide) (by decide) (by decide) (by decide) (by decide) (by decide)
    (by decide) (by decide) (by decide) (by decide)
  exact ⟨H.1.trans (by decide), H.2.2.trans (by decide)⟩
